import Mathlib

/-!
Verification development for the django_stored_procedures repository.

The development shallowly embeds the two core components of the repository:

* `django_sp/helpers/rest_framework.py` — the declarative raw-SQL filter
  builder (`RawSQLFilterSet`, `RawSQLFilter` and its variants).  Request
  values arrive as strings; typed values are modelled by `PyVal`; Python
  exceptions are modelled by the `Err` kind carried in `Except`.
* `django_sp/loader.py` — the procedure/view registry (`Loader.REGEXP`,
  `Loader.populate_helper`, `Loader._execute_sp`).

Machine integers are modelled by `Int`/`Nat`; `decimal.Decimal` values are
modelled by a mantissa/exponent pair (`PyVal.dec m e` stands for
`m * 10 ^ (-e)`), which is exactly the scaled-integer representation the
Python library uses.  File I/O is abstracted away: the loader model takes
the list of readable artifact texts directly.
-/

/-- Model of the Python exception kinds that the embedded code can raise.
`validationError` models `django.core.exceptions.ValidationError`,
`valueError` models `ValueError`, `typeError` models `TypeError`,
`assertionError` models `AssertionError` (raised by `assert`),
`invalidOperation` models `decimal.InvalidOperation` (which is an
`ArithmeticError`, not a `ValueError`), and `attributeError` models
`AttributeError`. -/
inductive Err where
  | validationError (msg : String)
  | valueError (msg : String)
  | typeError (msg : String)
  | assertionError (msg : String)
  | invalidOperation (msg : String)
  | attributeError (msg : String)
  deriving DecidableEq, Repr

/-- Model of the Python values that can end up in the bound-parameter list.
`PyVal.none` is Python `None`; `PyVal.dec m e` models `Decimal` with value
`m * 10 ^ (-e)`; `PyVal.dt` models a `datetime.datetime` by its
year/month/day/hour/minute components. -/
inductive PyVal where
  | none
  | str (s : String)
  | intv (n : Int)
  | dec (m : Int) (e : Nat)
  | dt (year month day hour minute : Nat)
  deriving DecidableEq, Repr

/-- Count of `%s` placeholder occurrences in a character list: the number of
positions holding `%` immediately followed by `s`. -/
def countPH : List Char → Nat
  | [] => 0
  | [_] => 0
  | c1 :: c2 :: rest => (if c1 = '%' && c2 = 's' then 1 else 0) + countPH (c2 :: rest)

/-- Count of `%s` placeholders in a string. -/
def countPHs (s : String) : Nat := countPH s.data

/-- Model of Python `sep.join(items)`. -/
def joinSep (sep : String) : List String → String
  | [] => ""
  | [s] => s
  | s :: rest => s ++ (sep ++ joinSep sep rest)

/-- Model of Python `str.split("__")`: split on non-overlapping occurrences
of a double underscore, left to right. -/
def splitUU : List Char → List (List Char)
  | [] => [[]]
  | '_' :: '_' :: rest => [] :: splitUU rest
  | c :: rest =>
    match splitUU rest with
    | [] => [[c]]
    | p :: ps => (c :: p) :: ps

/-- Model of Python `str.lower()` (ASCII case folding, which is all the
repository relies on). -/
def pyLower (s : String) : String := String.mk (s.data.map Char.toLower)

/-- Model of Python string slicing `s[:n]`. -/
def takeStr (n : Nat) (s : String) : String := String.mk (s.data.take n)

/-- Decimal digits of a character list folded into a natural number. -/
def digitsToNat (l : List Char) : Nat := l.foldl (fun acc c => acc * 10 + (c.toNat - 48)) 0

/-- True when the string contains no `%` character (so it cannot contribute
placeholder text when interpolated into a SQL fragment). -/
def noPercent (s : String) : Bool := s.data.all (fun c => decide (c ≠ '%'))

/-- Model of Python `int(s)` on a string: an optional sign followed by a
nonempty digit run; anything else raises `ValueError`.  (The model omits
surrounding whitespace and underscore separators, which the repository
never relies on.) -/
def pyInt (s : String) : Except Err Int :=
  let fail : Except Err Int :=
    .error (.valueError ("invalid literal for int() with base 10: \x27" ++ s ++ "\x27"))
  let core : List Char → Except Err Int := fun d =>
    if d.isEmpty then fail
    else if d.all Char.isDigit then .ok (Int.ofNat (digitsToNat d)) else fail
  match s.data with
  | '-' :: d => (core d).map (fun n => -n)
  | '+' :: d => core d
  | d => core d

/-- Model of Python `decimal.Decimal(s)` on a string: an optional sign, an
integer digit run, and an optional fractional digit run (the subset of the
`Decimal` grammar the repository exercises; exponents and special values are
omitted).  Returns the mantissa/exponent pair; malformed input raises
`decimal.InvalidOperation`, which is not a `ValueError`. -/
def pyDecimal (s : String) : Except Err (Int × Nat) :=
  let fail : Except Err (Int × Nat) := .error (.invalidOperation "ConversionSyntax")
  let core : List Char → Except Err (Int × Nat) := fun d =>
    let ip := d.takeWhile Char.isDigit
    let rest := d.drop ip.length
    match rest with
    | [] => if ip.isEmpty then fail else .ok (Int.ofNat (digitsToNat ip), 0)
    | '.' :: fp =>
      if fp.all Char.isDigit && !(ip.isEmpty && fp.isEmpty) then
        .ok (Int.ofNat (digitsToNat (ip ++ fp)), fp.length)
      else fail
    | _ => fail
  match s.data with
  | '-' :: d => (core d).map (fun p => (-p.1, p.2))
  | '+' :: d => core d
  | d => core d

/-- Word character in the ASCII range, as matched by the `\w` class of the
Python `re` patterns used by the repository. -/
def isWordChar (c : Char) : Bool := c.isAlphanum || c = '_'

/-- Model of CPython `datetime.datetime.strptime` restricted to the format
directives `%Y` (exactly four digits), `%m` and `%d` (one or two digits,
greedy) and literal characters; the state is the year/month/day accumulator.
A mismatch, an unsupported directive or leftover input fails (CPython raises
`ValueError` in each of these cases). -/
def strptimeAux : List Char → List Char → Nat × Nat × Nat → Option (Nat × Nat × Nat)
  | [], [], acc => some acc
  | [], _ :: _, _ => none
  | '%' :: 'Y' :: fr, inp, (_, m, d) =>
    let ds := inp.takeWhile Char.isDigit
    if ds.length = 4 then strptimeAux fr (inp.drop 4) (digitsToNat ds, m, d) else none
  | '%' :: 'm' :: fr, inp, (y, _, d) =>
    let ds := (inp.takeWhile Char.isDigit).take 2
    if ds.isEmpty then none else strptimeAux fr (inp.drop ds.length) (y, digitsToNat ds, d)
  | '%' :: 'd' :: fr, inp, (y, m, _) =>
    let ds := (inp.takeWhile Char.isDigit).take 2
    if ds.isEmpty then none else strptimeAux fr (inp.drop ds.length) (y, m, digitsToNat ds)
  | '%' :: _ :: _, _, _ => none
  | _ :: _, [], _ => none
  | c :: fr, i :: ir, acc => if c = i then strptimeAux fr ir acc else none

/-- Model of `datetime.datetime.strptime(value, fmt)`: on success the parsed
datetime (time fields defaulting to zero), on failure the `ValueError` that
CPython raises. -/
def pyStrptime (value fmt : String) : Except Err PyVal :=
  match strptimeAux fmt.data value.data (1900, 1, 1) with
  | some (y, m, d) => .ok (.dt y m d 0 0)
  | none =>
    .error (.valueError ("time data \x27" ++ value ++ "\x27 does not match format \x27" ++ fmt ++ "\x27"))

/-- Take one or two leading digits (greedy), returning the value and rest. -/
def takeDigits12 (l : List Char) : Option (Nat × List Char) :=
  let ds := (l.takeWhile Char.isDigit).take 2
  if ds.isEmpty then none else some (digitsToNat ds, l.drop ds.length)

/-- Model of `django.utils.dateparse.parse_datetime`: the anchored pattern
`YYYY-M(M)-D(D)[T ]H(H):M(M)` optionally followed by seconds, fractional
seconds and a timezone suffix.  A string that does not match yields Python
`None` (no exception); a match with out-of-range components raises
`ValueError` from the `datetime` constructor. -/
def parseDatetimeTail : List Char → Bool
  | [] => true
  | ':' :: rest =>
    match takeDigits12 rest with
    | some (_, rest2) =>
      (match rest2 with
       | [] => true
       | '.' :: fr => fr ≠ [] && fr.all Char.isDigit
       | ',' :: fr => fr ≠ [] && fr.all Char.isDigit
       | ['Z'] => true
       | _ => false)
    | none => false
  | ['Z'] => true
  | _ => false

/-- Model of `django.utils.dateparse.parse_datetime` (see
`parseDatetimeTail` for the optional suffix). -/
def pyParseDatetime (s : String) : Except Err PyVal :=
  let l := s.data
  let yd := l.takeWhile Char.isDigit
  if yd.length = 4 then
    match l.drop 4 with
    | '-' :: r1 =>
      match takeDigits12 r1 with
      | some (mo, r2) =>
        match r2 with
        | '-' :: r3 =>
          match takeDigits12 r3 with
          | some (d, r4) =>
            match r4 with
            | 'T' :: r5 =>
              match takeDigits12 r5 with
              | some (hh, r6) =>
                match r6 with
                | ':' :: r7 =>
                  match takeDigits12 r7 with
                  | some (mi, r8) =>
                    if parseDatetimeTail r8 then
                      if 1 ≤ mo && mo ≤ 12 && 1 ≤ d && d ≤ 31 && hh ≤ 23 && mi ≤ 59 then
                        .ok (.dt (digitsToNat yd) mo d hh mi)
                      else .error (.valueError "datetime component out of range")
                    else .ok .none
                  | none => .ok .none
                | _ => .ok .none
              | none => .ok .none
            | ' ' :: r5 =>
              match takeDigits12 r5 with
              | some (hh, r6) =>
                match r6 with
                | ':' :: r7 =>
                  match takeDigits12 r7 with
                  | some (mi, r8) =>
                    if parseDatetimeTail r8 then
                      if 1 ≤ mo && mo ≤ 12 && 1 ≤ d && d ≤ 31 && hh ≤ 23 && mi ≤ 59 then
                        .ok (.dt (digitsToNat yd) mo d hh mi)
                      else .error (.valueError "datetime component out of range")
                    else .ok .none
                  | none => .ok .none
                | _ => .ok .none
              | none => .ok .none
            | _ => .ok .none
          | none => .ok .none
        | _ => .ok .none
      | none => .ok .none
    | _ => .ok .none
  else .ok .none

/-- Wildcard placement for `CombinedSearchFilter` (`wildcard_place`); the
Python constructor asserts membership in `('start', 'end', 'both')`. -/
inductive WildcardPlace where
  | wstart
  | wend
  | wboth
  deriving DecidableEq, Repr

/-- The variant family of `RawSQLFilter` subclasses declared in
`django_sp/helpers/rest_framework.py`:
`StringFilter(max_length)`, `IntegerFilter(max_value, min_value)`,
`DecimalFilter(max_value, min_value)`, `DateTimeFilter(input_format)` and
`CombinedSearchFilter(map_to, max_length, strict_search, case_sensitive,
wildcard_place, strict_fields)` (whose `map_to` is the tuple of searched
columns). -/
inductive FilterVariant where
  | string (maxLength : Nat)
  | integer (maxValue minValue : Option Int)
  | decimal (maxValue minValue : Option Int)
  | datetime (inputFormat : Option String)
  | combined (searchFields : List String) (maxLength : Nat) (strictSearch : Bool)
      (caseSensitive : Bool) (wildcardPlace : WildcardPlace) (strictFields : List String)
  deriving DecidableEq, Repr

/-- A declared filter field: the variant plus the `map_to` and `default`
constructor arguments of `RawSQLFilter.__init__`. -/
structure FilterField where
  variant : FilterVariant
  mapTo : Option String
  default : Option PyVal
  deriving DecidableEq, Repr

/-- The `OPERATORS_MAPPING` class attribute of `RawSQLFilter`. -/
def OPERATORS_MAPPING : List (String × String) :=
  [("gte", ">="), ("gt", ">"), ("lte", "<="), ("lt", "<"),
   ("exact", "="), ("isnull", "_isnull_condition_replace")]

/-- Model of `self.OPERATORS_MAPPING.get(condition, condition)`. -/
def opLookup (condition : String) : String :=
  (((OPERATORS_MAPPING.find? (fun p => p.1 = condition)).map Prod.snd).getD condition)

/-- Names of the callable attributes of a filter-field instance other than
`_isnull_condition_replace`.  `RawSQLFilter.filter` resolves the (mapped)
condition with `getattr` and calls it when callable; hitting one of these
with a single string argument fails with an arity/unpacking `TypeError`
(modelled as a single `TypeError`). -/
def callableNames : List String :=
  ["filter", "set_filterset", "_convert", "_validate", "_parse_value", "_converter"]

/-- Model of `RawSQLFilter._isnull_condition_replace`: lower-cases the value
and rewrites the condition, signalling no bound parameter; any other value
raises `ValueError`. -/
def isnullConditionReplace (value : String) : Except Err String :=
  let v := pyLower value
  if v = "true" then .ok "IS NULL"
  else if v = "false" then .ok "IS NOT NULL"
  else .error (.valueError "%s is not right value for \x60isnull\x60 condition")

/-- Truthiness of an optional numeric bound, as in
`if self.max_value and ...`: `None` and `0` are falsy. -/
def boundTruthy (b : Option Int) : Bool :=
  match b with
  | Option.none => false
  | some n => decide (n ≠ 0)

/-- Model of `IntegerFilter._validate`: the max bound is checked first, then
the min bound, each only when truthy. -/
def integerValidate (mx mn : Option Int) (n : Int) : Except Err Unit :=
  if boundTruthy mx && decide (n > mx.getD 0) then
    .error (.validationError ("Value can not be greater than " ++ toString (mx.getD 0)))
  else if boundTruthy mn && decide (n < mn.getD 0) then
    .error (.validationError ("Value can not be less than " ++ toString (mn.getD 0)))
  else .ok ()

/-- Model of `IntegerFilter._validate` as inherited by `DecimalFilter`: the
decimal `m * 10 ^ (-e)` is compared against the integer bound by scaling the
bound (the comparisons Python performs between `Decimal` and `int`). -/
def decimalValidate (mx mn : Option Int) (m : Int) (e : Nat) : Except Err Unit :=
  if boundTruthy mx && decide (m > mx.getD 0 * (10 : Int) ^ e) then
    .error (.validationError ("Value can not be greater than " ++ toString (mx.getD 0)))
  else if boundTruthy mn && decide (m < mn.getD 0 * (10 : Int) ^ e) then
    .error (.validationError ("Value can not be less than " ++ toString (mn.getD 0)))
  else .ok ()

/-- Model of the base `RawSQLFilter._convert` applied to the `int` converter:
`TypeError`/`ValueError` from the converter is re-raised as a
`ValidationError` naming the value, the converter and the cause. -/
def intConvert (value : String) : Except Err Int :=
  match pyInt value with
  | .ok n => .ok n
  | .error (.valueError cause) =>
    .error (.validationError (value ++ " can not be converted to int (" ++ cause ++ ")"))
  | .error e => .error e

/-- Model of `RawSQLFilter._convert` applied to the `Decimal` converter: the
`except (TypeError, ValueError)` clause does not catch
`decimal.InvalidOperation`, so a malformed decimal escapes unwrapped. -/
def decimalConvert (value : String) : Except Err (Int × Nat) := pyDecimal value

/-- Model of `DateTimeFilter._convert`, which overrides the base `_convert`
without any exception handling: `strptime` when an input format is declared,
else `parse_datetime`. -/
def datetimeConvert (inputFormat : Option String) (value : String) : Except Err PyVal :=
  match inputFormat with
  | some fmt => pyStrptime value fmt
  | Option.none => pyParseDatetime value

/-- Model of `_parse_value` for each variant, applied to a real request
value (the no-value marker is handled separately in `fieldFilter`):
conversion then validation, with the string variants additionally truncating
to `max_length`. -/
def parseValue (f : FilterField) (value : String) : Except Err PyVal :=
  match f.variant with
  | .string maxLength => .ok (.str (takeStr maxLength value))
  | .combined _ maxLength _ _ _ _ => .ok (.str (takeStr maxLength value))
  | .integer mx mn => do
    let n ← intConvert value
    integerValidate mx mn n
    .ok (.intv n)
  | .decimal mx mn => do
    let md ← decimalConvert value
    decimalValidate mx mn md.1 md.2
    .ok (.dec md.1 md.2)
  | .datetime inputFormat => do
    let v ← datetimeConvert inputFormat value
    .ok v

/-- Model of the `map_to` substitution at the head of
`RawSQLFilter.filter`. -/
def effectiveName (f : FilterField) (name : String) : String :=
  match f.mapTo with
  | some m => m
  | Option.none => name

/-- The wildcard value templates of `CombinedSearchFilter.value_templates`,
applied as `value_template.format(parsed)`. -/
def applyWildcard (place : WildcardPlace) (v : String) : String :=
  match place with
  | .wstart => "%" ++ v
  | .wend => v ++ "%"
  | .wboth => "%" ++ v ++ "%"

/-- Model of `CombinedSearchFilter.filter`: one comparison per searched
column, `=` on the raw value for strict columns, else `LIKE`/`ILIKE` on the
truncated, wildcarded value; the fragments are OR-joined in parentheses and
one parameter is appended per column. -/
def combinedFilterSql (fields : List String) (maxLength : Nat)
    (strictSearch caseSensitive : Bool) (place : WildcardPlace)
    (strictFields : List String) (value : String) : String × List PyVal :=
  let parsed := takeStr maxLength value
  let wildcarded := applyWildcard place parsed
  let pairs := fields.map (fun field =>
    if strictSearch || strictFields.contains field then
      (field ++ " = %s", PyVal.str value)
    else
      (field ++ " " ++ (if caseSensitive then "LIKE" else "ILIKE") ++ " %s",
       PyVal.str wildcarded))
  ("(" ++ joinSep " OR " (pairs.map Prod.fst) ++ ")", pairs.map Prod.snd)

/-- Model of the filter-field `filter` method: the fragment it returns and
the parameters it appends to the owning filter set, or the exception it
raises.  Mirrors `RawSQLFilter.filter` (with the `map_to` substitution, the
operator resolution through `OPERATORS_MAPPING` with pass-through of unknown
tokens, the `getattr` dispatch to `_isnull_condition_replace`, and
`_parse_value`) and `CombinedSearchFilter.filter` for the combined variant.
For the `isnull` rewrite the string variant fails with `TypeError`, because
`StringFilter._parse_value` slices the no-value marker
(`novalue[:max_length]`). -/
def fieldFilter (f : FilterField) (name condition value : String) :
    Except Err (String × List PyVal) :=
  match f.variant with
  | .combined fields maxLength strictSearch caseSensitive place strictFields =>
    .ok (combinedFilterSql fields maxLength strictSearch caseSensitive place strictFields value)
  | _ =>
    let name := effectiveName f name
    let sqlCondition := opLookup condition
    if sqlCondition = "_isnull_condition_replace" then do
      let newCond ← isnullConditionReplace value
      match f.variant with
      | .string _ => .error (.typeError "\x27NoValue\x27 object is not subscriptable")
      | _ => .ok (name ++ " " ++ newCond, [])
    else if callableNames.contains sqlCondition then
      .error (.typeError "filter attribute is not a condition method")
    else do
      let v ← parseValue f value
      .ok (name ++ " " ++ sqlCondition ++ " %s", [v])

/-- The `Meta` options and declared fields of a `RawSQLFilterSet` subclass:
the fields in declaration order (as collected by the metaclass into an
ordered mapping), the `Meta.order_by` value (`none` models the falsy `False`
default) and the `Meta.logical_or` field-name list. -/
structure FilterSetSpec where
  filters : List (String × FilterField)
  order_by : Option String
  logical_or : List String
  deriving DecidableEq, Repr

/-- Model of `RawSQLFilterSet._get_filter_from_query_param`: a GET parameter
is split on `__` into name and condition; without a separator the default
condition `=` is used.  A parameter with two or more separators makes the
two-name unpacking raise `ValueError`. -/
def getFilterFromQueryParam (param value : String) :
    Except Err (String × String × String) :=
  match splitUU param.data with
  | [_] => .ok (param, "=", value)
  | [p, c] => .ok (String.mk p, String.mk c, value)
  | _ => .error (.valueError "too many values to unpack")

/-- Append a condition/value pair to the group of the given key, preserving
both the group order and the per-group submission order (the behaviour of
the `defaultdict(list)` in `_build_request_filters`). -/
def addToGroups (groups : List (String × List (String × String))) (key : String)
    (cv : String × String) : List (String × List (String × String)) :=
  match groups with
  | [] => [(key, [cv])]
  | (k, l) :: rest =>
    if k = key then (k, l ++ [cv]) :: rest else (k, l) :: addToGroups rest key cv

/-- Worker for `buildRequestFilters`. -/
def buildRequestFiltersAux : List (String × String) →
    List (String × List (String × String)) →
    Except Err (List (String × List (String × String)))
  | [], acc => .ok acc
  | (param, value) :: rest, acc => do
    let pcv ← getFilterFromQueryParam param value
    buildRequestFiltersAux rest (addToGroups acc (pyLower pcv.1) (pcv.2.1, pcv.2.2))

/-- Model of `RawSQLFilterSet._build_request_filters`: every query parameter
is split into name, condition and value, and the pairs are grouped under the
lower-cased name. -/
def buildRequestFilters (qp : List (String × String)) :
    Except Err (List (String × List (String × String))) :=
  buildRequestFiltersAux qp []

/-- Model of `self._request_filters.get(name)`. -/
def lookupGroups (groups : List (String × List (String × String))) (name : String) :
    Option (List (String × String)) :=
  (groups.find? (fun g => g.1 = name)).map Prod.snd

/-- Model of the `except ValidationError` re-wrap in
`RawSQLFilterSet._generate_conditions`: a `ValidationError` is re-raised
with the field name prepended (rendering the inner error the way Python
formats a `ValidationError`); every other exception propagates unchanged. -/
def wrapFieldError (name : String) (e : Err) : Err :=
  match e with
  | .validationError msg =>
    .validationError ("Exception raised for " ++ name ++ ": [\x27" ++ msg ++ "\x27]")
  | e => e

/-- Fragments and parameters for the submitted conditions of one field, in
submission order. -/
def processFieldConditions (f : FilterField) (name : String) :
    List (String × String) → Except Err (List (String × List PyVal))
  | [] => .ok []
  | (c, v) :: rest => do
    let p ← (fieldFilter f name c v).mapError (wrapFieldError name)
    let ps ← processFieldConditions f name rest
    .ok (p :: ps)

/-- Model of `RawSQLFilterSet._generate_conditions` over a field list: for a
field with submitted conditions, one fragment per condition; otherwise, if
the field declares a non-null default, the implicit fragment
`name = %s` (using the external field name) with the default appended as its
parameter.  Each returned pair holds a fragment and the parameters appended
while emitting it, in emission order. -/
def generateConditions (reqF : List (String × List (String × String))) :
    List (String × FilterField) → Except Err (List (String × List PyVal))
  | [] => .ok []
  | (name, f) :: rest =>
    match lookupGroups reqF name with
    | some (cv :: cvs) => do
      let ps ← processFieldConditions f name (cv :: cvs)
      let rs ← generateConditions reqF rest
      .ok (ps ++ rs)
    | _ =>
      match f.default with
      | some d => do
        let rs ← generateConditions reqF rest
        .ok ((name ++ " = %s", [d]) :: rs)
      | Option.none => generateConditions reqF rest

/-- Model of `RawSQLFilterSet._get_order_by`: a falsy `Meta.order_by` gives
the empty suffix; otherwise the anchored pattern with an optional leading
`-` (descending) and a `\w+` field name is applied, and a value the pattern
cannot match makes `.groups()` on `None` raise `AttributeError`. -/
def orderByString (ob : Option String) : Except Err String :=
  match ob with
  | Option.none => .ok ""
  | some s =>
    if s = "" then .ok ""
    else
      match s.data with
      | '-' :: rest =>
        let f := rest.takeWhile isWordChar
        if f.isEmpty then
          .error (.attributeError "\x27NoneType\x27 object has no attribute \x27groups\x27")
        else .ok ("ORDER BY " ++ String.mk f ++ " DESC")
      | l =>
        let f := l.takeWhile isWordChar
        if f.isEmpty then
          .error (.attributeError "\x27NoneType\x27 object has no attribute \x27groups\x27")
        else .ok ("ORDER BY " ++ String.mk f ++ " ASC")

/-- The `" OR ".join(or_cond) or 'TRUE'` fallback. -/
def orGroupSql (orSql : String) : String := if orSql = "" then "TRUE" else orSql

/-- Model of the `RawSQLFilterSet.sql` property body: the AND group (fields
not listed in `Meta.logical_or`, declaration order) is generated and joined
first, then the OR group, then the parenthesized OR clause is appended when
`Meta.logical_or` is truthy, then the order-by suffix is appended after a
space.  The returned parameters are the per-fragment parameters in emission
order (AND group first, then OR group). -/
def runSql (spec : FilterSetSpec) (reqF : List (String × List (String × String))) :
    Except Err (String × List PyVal) := do
  let andPairs ← generateConditions reqF
    (spec.filters.filter (fun p => !(spec.logical_or.contains p.1)))
  let orPairs ← generateConditions reqF
    (spec.filters.filter (fun p => spec.logical_or.contains p.1))
  let rawSql := joinSep " AND " (andPairs.map Prod.fst)
  let rawSql :=
    if spec.logical_or.isEmpty then rawSql
    else rawSql ++ " AND (" ++ orGroupSql (joinSep " OR " (orPairs.map Prod.fst)) ++ ")"
  let ob ← orderByString spec.order_by
  .ok (rawSql ++ " " ++ ob, (andPairs.map Prod.snd).flatten ++ (orPairs.map Prod.snd).flatten)

/-- End-to-end model of constructing a filter set for a request and reading
its `sql` property, returning the fragment together with the parameter tuple
readable from `params` afterwards. -/
def filterSetSql (spec : FilterSetSpec) (qp : List (String × String)) :
    Except Err (String × List PyVal) := do
  let reqF ← buildRequestFilters qp
  runSql spec reqF

/-- The per-request state of a `RawSQLFilterSet` instance: the resolved
request filters, the accumulated `_params_values` and the
`_conditions_built` flag. -/
structure FSState where
  reqF : List (String × List (String × String))
  vals : List PyVal
  built : Bool
  deriving DecidableEq, Repr

/-- Model of `RawSQLFilterSet.__init__`: the request filters are resolved
(which can itself raise), the parameter list starts empty and the built flag
false. -/
def fsInit (qp : List (String × String)) : Except Err FSState :=
  (buildRequestFilters qp).map (fun reqF => ⟨reqF, [], false⟩)

/-- Model of a first access to the `sql` property: on success the fragment
is returned, the parameters emitted while building it are appended to the
state and the built flag is set. -/
def fsSql (spec : FilterSetSpec) (st : FSState) : Except Err (String × FSState) :=
  match runSql spec st.reqF with
  | .ok (s, ps) => .ok (s, ⟨st.reqF, st.vals ++ ps, true⟩)
  | .error e => .error e

/-- Model of the `params` property: guarded by
`assert self._conditions_built`, then the accumulated values as a tuple. -/
def fsParams (st : FSState) : Except Err (List PyVal) :=
  if st.built then .ok st.vals
  else .error (.assertionError "\x60sql\x60 method must be called before!")

/-- Consume a literal character sequence from the input, returning the rest
on success. -/
def dropLead : List Char → List Char → Option (List Char)
  | [], l => some l
  | _ :: _, [] => none
  | p :: ps, c :: cs => if p = c then dropLead ps cs else none

/-- Match the tail of `Loader.REGEXP` from the mandatory space before the
kind token: a space, then `VIEW` or `FUNCTION` (tried in that order), then a
space, then a name consisting of one non-underscore character followed by at
least one word character (`[^_]\w+`, greedy).  Returns the captured
(kind, name) groups and the remaining input. -/
def matchKindName (l : List Char) : Option ((String × String) × List Char) :=
  match l with
  | ' ' :: l1 =>
    let tryKind : String → Option ((String × String) × List Char) := fun kw =>
      match dropLead kw.data l1 with
      | some (' ' :: c :: cs) =>
        if c = '_' then none
        else
          let ws := cs.takeWhile isWordChar
          if ws.isEmpty then none
          else some ((kw, String.mk (c :: ws)), cs.drop ws.length)
      | _ => none
    (tryKind "VIEW").orElse (fun _ => tryKind "FUNCTION")
  | _ => none

/-- Match `Loader.REGEXP` at the head of the input:
`CREATE (?:OR REPLACE)? (?P<type>(?:VIEW)|(?:FUNCTION)) (?P<name>[^_]\w+)`.
The literal `CREATE ` is consumed, then the optional `OR REPLACE` branch is
tried first with backtracking to its absence — so without `OR REPLACE` the
pattern still demands a second space before the kind token. -/
def matchCreate (l : List Char) : Option ((String × String) × List Char) :=
  match dropLead "CREATE ".data l with
  | Option.none => none
  | some l1 =>
    (match dropLead "OR REPLACE".data l1 with
     | some l2 => matchKindName l2
     | Option.none => none).orElse (fun _ => matchKindName l1)

/-- Fuelled scan for `re.findall`: try the pattern at every position, left
to right, resuming after each non-overlapping match. -/
def findAllAux : Nat → List Char → List (String × String)
  | 0, _ => []
  | _, [] => []
  | fuel + 1, c :: cs =>
    match matchCreate (c :: cs) with
    | some (tn, rest) => tn :: findAllAux fuel rest
    | Option.none => findAllAux fuel cs

/-- Model of `Loader.REGEXP.findall(text)`: the list of captured
(kind, name) group tuples. -/
def loaderFindAll (text : String) : List (String × String) :=
  findAllAux text.data.length text.data

/-- Python dict assignment on an association list: replace in place or
append. -/
def dictInsert : List (String × String) → String → String → List (String × String)
  | [], k, v => [(k, v)]
  | (k0, v0) :: rest, k, v =>
    if k0 = k then (k0, v) :: rest else (k0, v0) :: dictInsert rest k v

/-- Model of `Loader.populate_helper`: the name map is rebuilt from scratch;
each artifact text is scanned with the pattern and every captured name is
mapped to its lower-cased kind token, later writes overwriting earlier ones.
The artifact list stands for the readable files, in list order. -/
def populateHelper (artifacts : List String) : List (String × String) :=
  artifacts.foldl
    (fun names text =>
      (loaderFindAll text).foldl (fun names tn => dictInsert names tn.2 (pyLower tn.1)) names)
    []

/-- Membership lookup in the populated registry (`self._sp_names`). -/
def registryGet (names : List (String × String)) (k : String) : Option String :=
  (names.find? (fun p => p.1 = k)).map Prod.snd

/-- Model of the positional-argument filtering in `Loader._execute_sp`:
`[arg for arg in args if arg is not None]`. -/
def dropNones : List (Option String) → List String
  | [] => []
  | Option.none :: rest => dropNones rest
  | some a :: rest => a :: dropNones rest

/-- Model of `Loader._execute_sp` up to the database call: positional
arguments (with `None` entries dropped) become `%s` placeholders, keyword
arguments are formatted verbatim into the statement as `key := value`, and
the statement is built with the two groups comma-joined.  Returns the
statement text together with the bound-argument list passed on to
`cursor.execute` via `_get_res`.  Argument and keyword values are modelled
by the strings they format to. -/
def executeSp (name : String) (args : List (Option String))
    (kwargs : List (String × String)) : String × List String :=
  let args := dropNones args
  let arguments := joinSep ","
    (args.map (fun _ => "%s") ++ kwargs.map (fun kv => kv.1 ++ " := " ++ kv.2))
  ("SELECT * FROM " ++ name ++ "(" ++ arguments ++ ")", args)

/-- The `GenericFilterSet` declared in the repository test suite:
`some_name = StringFilter(map_to='name', default='noop')`,
`age = IntegerFilter(max_value=100, min_value=10)`,
`amount = DecimalFilter(max_value=400, min_value=-300)`,
`Meta.order_by = '-amount'`, no OR group. -/
def genericFilterSet : FilterSetSpec :=
  { filters := [
      ("some_name", { variant := .string 255, mapTo := some "name", default := some (.str "noop") }),
      ("age", { variant := .integer (some 100) (some 10), mapTo := Option.none, default := Option.none }),
      ("amount", { variant := .decimal (some 400) (some (-300)), mapTo := Option.none, default := Option.none })],
    order_by := some "-amount",
    logical_or := [] }

/-- The `GenericORFilterSet` of the test suite: same fields,
`Meta.order_by = 'amount'` and `Meta.logical_or = ('age', 'amount')`. -/
def genericORFilterSet : FilterSetSpec :=
  { genericFilterSet with order_by := some "amount", logical_or := ["age", "amount"] }

/-- A filter set with a single bounded integer field and no ordering. -/
def ageOnlyFilterSet : FilterSetSpec :=
  { filters := [("age",
      { variant := .integer (some 100) (some 10), mapTo := Option.none, default := Option.none })],
    order_by := Option.none,
    logical_or := [] }

/-- A single integer field declaring the bounds `max_value=100` and
`min_value=0`; the zero bound is falsy in the validation guard. -/
def ageZeroMinFilterSet : FilterSetSpec :=
  { filters := [("age",
      { variant := .integer (some 100) (some 0), mapTo := Option.none, default := Option.none })],
    order_by := Option.none,
    logical_or := [] }

/-- A single string field with a `map_to` override and a default value. -/
def mappedDefaultFilterSet : FilterSetSpec :=
  { filters := [("some_name",
      { variant := .string 255, mapTo := some "name", default := some (.str "noop") })],
    order_by := Option.none,
    logical_or := [] }

/-- A single datetime field with `input_format='%Y'`. -/
def dtFilterSet : FilterSetSpec :=
  { filters := [("when",
      { variant := .datetime (some "%Y"), mapTo := Option.none, default := Option.none })],
    order_by := Option.none,
    logical_or := [] }

/-- An artifact declaring a function with plain `CREATE FUNCTION` (a single
space between the two words). -/
def plainCreateArtifact : String :=
  "CREATE FUNCTION foo(a integer) RETURNS integer AS $$ BEGIN RETURN a * 4; END $$"

/-- The same declaration with `OR REPLACE`. -/
def orReplaceArtifact : String :=
  "CREATE OR REPLACE FUNCTION foo(a integer) RETURNS integer AS $$ BEGIN RETURN a * 4; END $$"

/-- An artifact declaring a view with `CREATE OR REPLACE VIEW`. -/
def viewArtifact : String :=
  "CREATE OR REPLACE VIEW bar AS SELECT id, name, amount * 2 AS amount FROM test_table"

theorem countPH_append : ∀ (a b : List Char),
    a.getLast? ≠ some '%' ∨ b.head? ≠ some 's' →
    countPH (a ++ b) = countPH a + countPH b
  | [], b, _ => by simp [countPH]
  | [c], b, h => by
    cases b with
    | nil => simp [countPH]
    | cons d bs =>
      have hcd : ¬(c = '%' ∧ d = 's') := by
        rcases h with h | h
        · intro hh
          exact h (by simp [hh.1])
        · intro hh
          exact h (by simp [hh.2])
      have : (decide (c = '%') && decide (d = 's')) = false := by
        rcases Decidable.em (c = '%') with hc | hc
        · rcases Decidable.em (d = 's') with hd | hd
          · exact absurd ⟨hc, hd⟩ hcd
          · simp [hd]
        · simp [hc]
      simp [countPH, this]
  | c1 :: c2 :: rest, b, h => by
    have hl : (c1 :: c2 :: rest).getLast? = (c2 :: rest).getLast? := by
      simp [List.getLast?]
    have ih := countPH_append (c2 :: rest) b (by rw [hl] at h; exact h)
    simp only [List.cons_append] at *
    simp only [countPH, ih]
    omega

theorem countPH_of_noPercent : ∀ (l : List Char),
    l.all (fun c => decide (c ≠ '%')) = true → countPH l = 0
  | [], _ => rfl
  | [_], _ => rfl
  | c1 :: c2 :: rest, h => by
    simp only [List.all_cons, Bool.and_eq_true, decide_eq_true_eq] at h
    have ih := countPH_of_noPercent (c2 :: rest)
      (by simp only [List.all_cons, Bool.and_eq_true, decide_eq_true_eq]; exact ⟨h.2.1, h.2.2⟩)
    simp [countPH, ih, h.1]

theorem countPHs_append (a b : String)
    (h : a.data.getLast? ≠ some '%' ∨ b.data.head? ≠ some 's') :
    countPHs (a ++ b) = countPHs a + countPHs b := by
  unfold countPHs
  rw [String.data_append]
  exact countPH_append _ _ h

theorem noPercent_countPHs (s : String) (h : noPercent s = true) : countPHs s = 0 :=
  countPH_of_noPercent s.data h

theorem noPercent_getLast (s : String) (h : noPercent s = true) :
    s.data.getLast? ≠ some '%' := by
  intro hc
  have hm : '%' ∈ s.data := (List.mem_of_mem_getLast? hc)
  have := List.all_eq_true.mp h '%' hm
  simp at this

theorem countPHs_append_zero (a b : String) (ha : noPercent a = true)
    (hb : noPercent b = true) : countPHs (a ++ b) = 0 := by
  rw [countPHs_append a b (Or.inl (noPercent_getLast a ha))]
  rw [noPercent_countPHs a ha, noPercent_countPHs b hb]

theorem countPHs_condFrag (name op : String) (hn : noPercent name = true)
    (hop : noPercent op = true) : countPHs (name ++ " " ++ op ++ " %s") = 1 := by
  rw [countPHs_append (name ++ " " ++ op) " %s" (Or.inr (by decide))]
  have h1 : (name ++ " ").data.getLast? = some ' ' := by
    rw [String.data_append]
    rw [List.getLast?_append]
    rfl
  rw [countPHs_append (name ++ " ") op (Or.inl (by rw [h1]; decide))]
  rw [countPHs_append name " " (Or.inr (by decide))]
  rw [noPercent_countPHs name hn, noPercent_countPHs op hop]
  rfl

theorem countPHs_joinSep (sep : String) (hh : sep.data.head? ≠ some 's')
    (hl : sep.data.getLast? ≠ some '%') (h0 : countPHs sep = 0)
    (hne : sep.data ≠ []) :
    ∀ (l : List String), countPHs (joinSep sep l) = (l.map countPHs).sum
  | [] => by simp [joinSep, countPHs, countPH]
  | [s] => by simp [joinSep]
  | s :: r :: rs => by
    have ih := countPHs_joinSep sep hh hl h0 hne (r :: rs)
    have hhead : (sep ++ joinSep sep (r :: rs)).data.head? ≠ some 's' := by
      rw [String.data_append, List.head?_append]
      cases hc : sep.data with
      | nil => exact absurd hc hne
      | cons c cs =>
        rw [hc] at hh
        simpa using hh
    show countPHs (s ++ (sep ++ joinSep sep (r :: rs))) = _
    rw [countPHs_append s _ (Or.inr hhead)]
    rw [countPHs_append sep _ (Or.inl hl)]
    rw [ih, h0]
    simp [List.map_cons, List.sum_cons]

theorem joinSep_eq_empty (sep : String) :
    ∀ (l : List String), (∀ s ∈ l, s.data ≠ []) → joinSep sep l = "" → l = []
  | [], _, _ => rfl
  | [s], h, he => by
    have hs : s = "" := by simpa [joinSep] using he
    exact absurd (by rw [hs]) (h s (by simp))
  | s :: r :: rs, h, he => by
    have hd : (s ++ (sep ++ joinSep sep (r :: rs))).data = [] := by
      rw [show s ++ (sep ++ joinSep sep (r :: rs)) = joinSep sep (s :: r :: rs) from rfl, he]
    rw [String.data_append] at hd
    exact absurd (List.append_eq_nil.mp hd).1 (h s (by simp))

/-- The operator aliases a request may use (plus the implicit `=` from a
parameter without a `__` separator); the amended claims quantify over
these. -/
def allowedConds : List String := ["gte", "gt", "lte", "lt", "exact", "isnull", "="]

/-- The condition token a query parameter resolves to: the part after the
`__` separator, or `=` when there is none. -/
def condOfParam (param : String) : String :=
  match splitUU param.data with
  | [_, c] => String.mk c
  | _ => "="

/-- Every query parameter resolves to a condition from the alias table. -/
def allowedParams (qp : List (String × String)) : Bool :=
  qp.all (fun pv => allowedConds.contains (condOfParam pv.1))

/-- The declared name, the `map_to` override and (for the combined variant)
the searched columns contain no `%` character — i.e. they are plain SQL
identifiers that cannot inject placeholder text. -/
def cleanField (name : String) (f : FilterField) : Bool :=
  noPercent name &&
  (match f.mapTo with
   | some m => noPercent m
   | Option.none => true) &&
  (match f.variant with
   | .combined fields _ _ _ _ _ => fields.all noPercent
   | _ => true)

/-- All declared fields of the filter set are clean. -/
def cleanSpec (spec : FilterSetSpec) : Bool :=
  spec.filters.all (fun p => cleanField p.1 p.2)

theorem exceptBindOk {α β : Type} (m : Except Err α) (g : α → β) (b : β)
    (h : (do let v ← m; Except.ok (g v)) = Except.ok b) :
    ∃ v, m = .ok v ∧ b = g v := by
  rcases m with e | v
  · simp [Bind.bind, Except.bind] at h
  · refine ⟨v, rfl, ?_⟩
    simp only [Bind.bind, Except.bind, Except.ok.injEq] at h
    exact h.symm

theorem isnullReplace_ok (value nc : String)
    (h : isnullConditionReplace value = .ok nc) :
    nc = "IS NULL" ∨ nc = "IS NOT NULL" := by
  simp only [isnullConditionReplace] at h
  split_ifs at h with h1 h2
  · exact Or.inl (Except.ok.injEq _ _ ▸ h).symm
  · exact Or.inr (Except.ok.injEq _ _ ▸ h).symm

theorem mappedCaseShape (m : Except Err PyVal) (pre s : String) (ps : List PyVal) (op : String)
    (hop : op = ">=" ∨ op = ">" ∨ op = "<=" ∨ op = "<" ∨ op = "=")
    (h : (do let v ← m
             Except.ok (pre ++ " " ++ op ++ " %s", [v]) : Except Err (String × List PyVal))
      = .ok (s, ps)) :
    ∃ opx v, (opx = ">=" ∨ opx = ">" ∨ opx = "<=" ∨ opx = "<" ∨ opx = "=") ∧
      s = pre ++ " " ++ opx ++ " %s" ∧ ps = [v] := by
  obtain ⟨v, _, hb⟩ := exceptBindOk m _ _ h
  exact ⟨op, v, hop, congrArg Prod.fst hb, congrArg Prod.snd hb⟩

theorem isnullCaseShape (m : Except Err String) (pre s : String) (ps : List PyVal)
    (hm : ∀ nc, m = .ok nc → nc = "IS NULL" ∨ nc = "IS NOT NULL")
    (h : (do let nc ← m
             Except.ok (pre ++ " " ++ nc, []) : Except Err (String × List PyVal))
      = .ok (s, ps)) :
    (s = pre ++ " IS NULL" ∨ s = pre ++ " IS NOT NULL") ∧ ps = [] := by
  obtain ⟨nc, hnc, hb⟩ := exceptBindOk m _ _ h
  have hs : s = pre ++ " " ++ nc := congrArg Prod.fst hb
  have hps : ps = [] := congrArg Prod.snd hb
  rcases hm nc hnc with rfl | rfl
  · refine ⟨Or.inl ?_, hps⟩
    rw [hs, String.append_assoc]
    rfl
  · refine ⟨Or.inr ?_, hps⟩
    rw [hs, String.append_assoc]
    rfl

/-- Shape of every successful `filter` call: a mapped comparison with one
parameter, an `isnull` rewrite with no parameter, or the combined-search
fragment.  The hypothesis restricts the condition to the alias table; an
unknown token would be interpolated verbatim instead (see the C7
counterexample). -/
theorem fieldFilter_ok_shape (f : FilterField) (name cond value s : String) (ps : List PyVal)
    (ha : cond ∈ allowedConds)
    (h : fieldFilter f name cond value = .ok (s, ps)) :
    (∃ op v, (op = ">=" ∨ op = ">" ∨ op = "<=" ∨ op = "<" ∨ op = "=") ∧
        s = effectiveName f name ++ " " ++ op ++ " %s" ∧ ps = [v]) ∨
    ((s = effectiveName f name ++ " IS NULL" ∨ s = effectiveName f name ++ " IS NOT NULL") ∧
      ps = []) ∨
    (∃ fields ml ss cs pl sf, f.variant = .combined fields ml ss cs pl sf ∧
        (s, ps) = combinedFilterSql fields ml ss cs pl sf value) := by
  obtain ⟨v0, mt, d⟩ := f
  simp only [allowedConds, List.mem_cons, List.not_mem_nil, or_false] at ha
  cases v0 with
  | combined fields ml ss cs pl sf =>
    refine Or.inr (Or.inr ⟨fields, ml, ss, cs, pl, sf, rfl, ?_⟩)
    rw [show fieldFilter ⟨.combined fields ml ss cs pl sf, mt, d⟩ name cond value
        = Except.ok (combinedFilterSql fields ml ss cs pl sf value) from rfl] at h
    injection h with h2
    exact h2.symm
  | string ml =>
    rcases ha with rfl | rfl | rfl | rfl | rfl | rfl | rfl
    · exact Or.inl (mappedCaseShape _ _ _ _ ">=" (by tauto) h)
    · exact Or.inl (mappedCaseShape _ _ _ _ ">" (by tauto) h)
    · exact Or.inl (mappedCaseShape _ _ _ _ "<=" (by tauto) h)
    · exact Or.inl (mappedCaseShape _ _ _ _ "<" (by tauto) h)
    · exact Or.inl (mappedCaseShape _ _ _ _ "=" (by tauto) h)
    · exfalso
      rcases hi : isnullConditionReplace value with e | nc <;>
        rw [show fieldFilter ⟨.string ml, mt, d⟩ name "isnull" value
            = (do let _ ← isnullConditionReplace value
                  (Except.error (.typeError "\x27NoValue\x27 object is not subscriptable") :
                    Except Err (String × List PyVal))) from rfl, hi] at h <;>
        simp [Bind.bind, Except.bind] at h
    · exact Or.inl (mappedCaseShape _ _ _ _ "=" (by tauto) h)
  | integer mx mn =>
    rcases ha with rfl | rfl | rfl | rfl | rfl | rfl | rfl
    · exact Or.inl (mappedCaseShape _ _ _ _ ">=" (by tauto) h)
    · exact Or.inl (mappedCaseShape _ _ _ _ ">" (by tauto) h)
    · exact Or.inl (mappedCaseShape _ _ _ _ "<=" (by tauto) h)
    · exact Or.inl (mappedCaseShape _ _ _ _ "<" (by tauto) h)
    · exact Or.inl (mappedCaseShape _ _ _ _ "=" (by tauto) h)
    · exact Or.inr (Or.inl (isnullCaseShape (isnullConditionReplace value) _ _ _
        (fun nc hnc => isnullReplace_ok value nc hnc) h))
    · exact Or.inl (mappedCaseShape _ _ _ _ "=" (by tauto) h)
  | decimal mx mn =>
    rcases ha with rfl | rfl | rfl | rfl | rfl | rfl | rfl
    · exact Or.inl (mappedCaseShape _ _ _ _ ">=" (by tauto) h)
    · exact Or.inl (mappedCaseShape _ _ _ _ ">" (by tauto) h)
    · exact Or.inl (mappedCaseShape _ _ _ _ "<=" (by tauto) h)
    · exact Or.inl (mappedCaseShape _ _ _ _ "<" (by tauto) h)
    · exact Or.inl (mappedCaseShape _ _ _ _ "=" (by tauto) h)
    · exact Or.inr (Or.inl (isnullCaseShape (isnullConditionReplace value) _ _ _
        (fun nc hnc => isnullReplace_ok value nc hnc) h))
    · exact Or.inl (mappedCaseShape _ _ _ _ "=" (by tauto) h)
  | datetime fmt =>
    rcases ha with rfl | rfl | rfl | rfl | rfl | rfl | rfl
    · exact Or.inl (mappedCaseShape _ _ _ _ ">=" (by tauto) h)
    · exact Or.inl (mappedCaseShape _ _ _ _ ">" (by tauto) h)
    · exact Or.inl (mappedCaseShape _ _ _ _ "<=" (by tauto) h)
    · exact Or.inl (mappedCaseShape _ _ _ _ "<" (by tauto) h)
    · exact Or.inl (mappedCaseShape _ _ _ _ "=" (by tauto) h)
    · exact Or.inr (Or.inl (isnullCaseShape (isnullConditionReplace value) _ _ _
        (fun nc hnc => isnullReplace_ok value nc hnc) h))
    · exact Or.inl (mappedCaseShape _ _ _ _ "=" (by tauto) h)

theorem sum_map_ones {α : Type} : ∀ (l : List α) (g : α → Nat),
    (∀ x ∈ l, g x = 1) → (l.map g).sum = l.length
  | [], _, _ => rfl
  | x :: xs, g, h => by
    have ih := sum_map_ones xs g (fun y hy => h y (List.mem_cons_of_mem x hy))
    simp only [List.map_cons, List.sum_cons, List.length_cons, h x (List.mem_cons_self x xs), ih]
    omega

theorem countPHs_paren_join (frags : List String)
    (h : ∀ x ∈ frags, countPHs x = 1) :
    countPHs ("(" ++ joinSep " OR " frags ++ ")") = frags.length ∧
    ("(" ++ joinSep " OR " frags ++ ")").data ≠ [] := by
  constructor
  · rw [countPHs_append _ ")" (Or.inr (by decide))]
    rw [countPHs_append "(" _ (Or.inl (by decide))]
    rw [countPHs_joinSep " OR " (by decide) (by decide) (by decide) (by decide) frags]
    rw [sum_map_ones frags countPHs h]
    have h1 : countPHs "(" = 0 := rfl
    have h2 : countPHs ")" = 0 := rfl
    omega
  · simp [String.data_append]

theorem cleanField_effectiveName (name : String) (f : FilterField)
    (hc : cleanField name f = true) : noPercent (effectiveName f name) = true := by
  simp only [cleanField, Bool.and_eq_true] at hc
  unfold effectiveName
  cases hmt : f.mapTo with
  | none => exact hc.1.1
  | some m =>
    have h2 := hc.1.2
    rw [hmt] at h2
    exact h2

theorem cleanField_combined (name : String) (f : FilterField)
    (fields : List String) (ml : Nat) (ss cs : Bool) (pl : WildcardPlace) (sfl : List String)
    (hv : f.variant = .combined fields ml ss cs pl sfl)
    (hc : cleanField name f = true) : fields.all noPercent = true := by
  simp only [cleanField, Bool.and_eq_true] at hc
  have h2 := hc.2
  rw [hv] at h2
  exact h2

theorem combinedFilterSql_count (fields : List String) (ml : Nat) (ss cs : Bool)
    (pl : WildcardPlace) (sfl : List String) (value : String)
    (hf : fields.all noPercent = true) :
    countPHs (combinedFilterSql fields ml ss cs pl sfl value).1 =
      (combinedFilterSql fields ml ss cs pl sfl value).2.length ∧
    (combinedFilterSql fields ml ss cs pl sfl value).1.data ≠ [] := by
  have hfrag : ∀ x ∈ (fields.map (fun field =>
      if ss || sfl.contains field then (field ++ " = %s", PyVal.str value)
      else (field ++ " " ++ (if cs then "LIKE" else "ILIKE") ++ " %s",
        PyVal.str (applyWildcard pl (takeStr ml value))))).map Prod.fst,
      countPHs x = 1 := by
    intro x hx
    obtain ⟨pr, hpr, rfl⟩ := List.mem_map.mp hx
    obtain ⟨field, hfield, rfl⟩ := List.mem_map.mp hpr
    have hnp : noPercent field = true := List.all_eq_true.mp hf field hfield
    cases hcond : (ss || sfl.contains field) with
    | true =>
      simp only [hcond, if_true]
      rw [countPHs_append field " = %s" (Or.inr (by decide))]
      rw [noPercent_countPHs field hnp]
      rfl
    | false =>
      simp only [hcond, Bool.false_eq_true, if_false]
      exact countPHs_condFrag field _ hnp (by cases cs <;> decide)
  have hmain := countPHs_paren_join _ hfrag
  refine ⟨?_, hmain.2⟩
  show countPHs ("(" ++ joinSep " OR " ((fields.map (fun field =>
      if ss || sfl.contains field then (field ++ " = %s", PyVal.str value)
      else (field ++ " " ++ (if cs then "LIKE" else "ILIKE") ++ " %s",
        PyVal.str (applyWildcard pl (takeStr ml value))))).map Prod.fst) ++ ")")
    = ((fields.map (fun field =>
      if ss || sfl.contains field then (field ++ " = %s", PyVal.str value)
      else (field ++ " " ++ (if cs then "LIKE" else "ILIKE") ++ " %s",
        PyVal.str (applyWildcard pl (takeStr ml value))))).map Prod.snd).length
  rw [hmain.1]
  simp [List.length_map]

theorem fieldFilter_ok_count (f : FilterField) (name cond value s : String) (ps : List PyVal)
    (hc : cleanField name f = true) (ha : cond ∈ allowedConds)
    (h : fieldFilter f name cond value = .ok (s, ps)) :
    countPHs s = ps.length ∧ s.data ≠ [] := by
  have hen : noPercent (effectiveName f name) = true := cleanField_effectiveName name f hc
  rcases fieldFilter_ok_shape f name cond value s ps ha h with
    ⟨op, v, hop, rfl, rfl⟩ | ⟨hs, rfl⟩ | ⟨fields, ml, ss, cs, pl, sfl, hv, hsp⟩
  · constructor
    · rw [countPHs_condFrag _ op hen (by rcases hop with rfl | rfl | rfl | rfl | rfl <;> decide)]
      rfl
    · simp [String.data_append]
  · rcases hs with rfl | rfl
    · exact ⟨countPHs_append_zero _ " IS NULL" hen (by decide), by simp [String.data_append]⟩
    · exact ⟨countPHs_append_zero _ " IS NOT NULL" hen (by decide), by simp [String.data_append]⟩
  · have hall : fields.all noPercent = true := cleanField_combined name f fields ml ss cs pl sfl hv hc
    have hcc := combinedFilterSql_count fields ml ss cs pl sfl value hall
    have hss : s = (combinedFilterSql fields ml ss cs pl sfl value).1 := congrArg Prod.fst hsp
    have hpp : ps = (combinedFilterSql fields ml ss cs pl sfl value).2 := congrArg Prod.snd hsp
    rw [hss, hpp]
    exact hcc

/-- Every condition stored in the resolved request filters comes from the
alias table. -/
def goodGroups (reqF : List (String × List (String × String))) : Prop :=
  ∀ g ∈ reqF, ∀ cv ∈ g.2, cv.1 ∈ allowedConds

theorem addToGroups_good : ∀ (groups : List (String × List (String × String)))
    (key : String) (cv : String × String),
    goodGroups groups → cv.1 ∈ allowedConds → goodGroups (addToGroups groups key cv)
  | [], key, cv, _, hcv => by
    intro g hg cv2 hcv2
    simp only [addToGroups, List.mem_singleton] at hg
    subst hg
    simp only [List.mem_singleton] at hcv2
    subst hcv2
    exact hcv
  | (k, l) :: rest, key, cv, hg, hcv => by
    intro g hgm cv2 hcv2
    simp only [addToGroups] at hgm
    by_cases hk : k = key
    · rw [if_pos hk] at hgm
      rcases List.mem_cons.mp hgm with rfl | hmem
      · rcases List.mem_append.mp hcv2 with hin | hone
        · exact hg (k, l) (List.mem_cons_self _ _) cv2 hin
        · rw [List.mem_singleton.mp hone]
          exact hcv
      · exact hg g (List.mem_cons_of_mem _ hmem) cv2 hcv2
    · rw [if_neg hk] at hgm
      rcases List.mem_cons.mp hgm with rfl | hmem
      · exact hg (k, l) (List.mem_cons_self _ _) cv2 hcv2
      · exact addToGroups_good rest key cv
          (fun g2 hg2 => hg g2 (List.mem_cons_of_mem _ hg2)) hcv g hmem cv2 hcv2

theorem getFilterFromQueryParam_cond (param value p c v : String)
    (h : getFilterFromQueryParam param value = .ok (p, c, v)) :
    c = condOfParam param := by
  unfold getFilterFromQueryParam at h
  unfold condOfParam
  rcases hs : splitUU param.data with _ | ⟨a, _ | ⟨b, _ | ⟨cc, rest⟩⟩⟩ <;> rw [hs] at h <;> simp at h
  · exact h.2.1.symm
  · exact h.2.1.symm

theorem buildRequestFiltersAux_good : ∀ (qp : List (String × String))
    (acc : List (String × List (String × String))) (rf),
    allowedParams qp = true → goodGroups acc →
    buildRequestFiltersAux qp acc = .ok rf → goodGroups rf
  | [], acc, rf, _, hacc, h => by
    simp only [buildRequestFiltersAux] at h
    injection h with h2
    exact h2 ▸ hacc
  | (param, value) :: rest, acc, rf, hap, hacc, h => by
    simp only [buildRequestFiltersAux] at h
    simp only [allowedParams, List.all_cons, Bool.and_eq_true] at hap
    rcases hq : getFilterFromQueryParam param value with e | pcv
    · rw [hq] at h
      simp [Bind.bind, Except.bind] at h
    · rw [hq] at h
      simp only [Bind.bind, Except.bind] at h
      obtain ⟨p, c, v⟩ := pcv
      have hcm : c ∈ allowedConds := by
        rw [getFilterFromQueryParam_cond param value p c v hq]
        exact List.mem_of_elem_eq_true hap.1
      exact buildRequestFiltersAux_good rest _ rf hap.2
        (addToGroups_good acc (pyLower p) (c, v) hacc hcm) h

theorem buildRequestFilters_good (qp : List (String × String)) (rf)
    (hap : allowedParams qp = true) (h : buildRequestFilters qp = .ok rf) :
    goodGroups rf :=
  buildRequestFiltersAux_good qp [] rf hap (by intro g hg; simp at hg) h

theorem lookupGroups_good (reqF) (hg : goodGroups reqF) (name : String) (cvs)
    (h : lookupGroups reqF name = some cvs) : ∀ cv ∈ cvs, cv.1 ∈ allowedConds := by
  unfold lookupGroups at h
  cases hf : reqF.find? (fun g => g.1 = name) with
  | none => rw [hf] at h; simp at h
  | some g =>
    rw [hf] at h
    simp at h
    intro cv hcv
    exact hg g (List.mem_of_find?_eq_some hf) cv (h ▸ hcv)

theorem countPHs_defaultFrag (name : String) (hn : noPercent name = true) :
    countPHs (name ++ " = %s") = 1 := by
  rw [countPHs_append name " = %s" (Or.inr (by decide)), noPercent_countPHs name hn]
  rfl

theorem mapError_ok {α : Type} (m : Except Err α) (g : Err → Err) (a : α)
    (h : m.mapError g = .ok a) : m = .ok a := by
  cases m with
  | error e => simp [Except.mapError] at h
  | ok b =>
    simp only [Except.mapError] at h
    exact h

theorem processFieldConditions_count (f : FilterField) (name : String)
    (hc : cleanField name f = true) :
    ∀ (cvs : List (String × String)) (pairs : List (String × List PyVal)),
    (∀ cv ∈ cvs, cv.1 ∈ allowedConds) →
    processFieldConditions f name cvs = .ok pairs →
    ∀ pr ∈ pairs, countPHs pr.1 = pr.2.length ∧ pr.1.data ≠ []
  | [], pairs, _, h => by
    simp only [processFieldConditions] at h
    injection h with h2
    subst h2
    intro pr hpr
    simp at hpr
  | (c, v) :: rest, pairs, hall, h => by
    simp only [processFieldConditions] at h
    rcases hff : (fieldFilter f name c v).mapError (wrapFieldError name) with e | p
    · rw [hff] at h
      simp [Bind.bind, Except.bind] at h
    · rw [hff] at h
      simp only [Bind.bind, Except.bind] at h
      rcases hrest : processFieldConditions f name rest with e2 | ps2
      · rw [hrest] at h
        simp at h
      · rw [hrest] at h
        simp only [Except.ok.injEq] at h
        subst h
        intro pr hpr
        rcases List.mem_cons.mp hpr with rfl | hmem
        · obtain ⟨s0, ps0⟩ := pr
          exact fieldFilter_ok_count f name c v s0 ps0 hc
            (hall (c, v) (List.mem_cons_self _ _)) (mapError_ok _ _ _ hff)
        · exact processFieldConditions_count f name hc rest ps2
            (fun cv hcv => hall cv (List.mem_cons_of_mem _ hcv)) hrest pr hmem

theorem generateConditions_count (reqF : List (String × List (String × String)))
    (hg : goodGroups reqF) :
    ∀ (fields : List (String × FilterField)) (pairs : List (String × List PyVal)),
    (∀ p ∈ fields, cleanField p.1 p.2 = true) →
    generateConditions reqF fields = .ok pairs →
    ∀ pr ∈ pairs, countPHs pr.1 = pr.2.length ∧ pr.1.data ≠ []
  | [], pairs, _, h => by
    simp only [generateConditions] at h
    injection h with h2
    subst h2
    intro pr hpr
    simp at hpr
  | (name, f) :: rest, pairs, hcf, h => by
    have hcf1 : cleanField name f = true := hcf (name, f) (List.mem_cons_self _ _)
    have hcfr : ∀ p ∈ rest, cleanField p.1 p.2 = true :=
      fun p hp => hcf p (List.mem_cons_of_mem _ hp)
    simp only [generateConditions] at h
    rcases hlk : lookupGroups reqF name with _ | ⟨_ | ⟨cv, cvs⟩⟩
    · rw [hlk] at h
      cases hd : f.default with
      | none =>
        rw [hd] at h
        exact fun pr hpr => generateConditions_count reqF hg rest pairs hcfr h pr hpr
      | some d =>
        rw [hd] at h
        rcases hrest : generateConditions reqF rest with e2 | rs
        · rw [hrest] at h
          simp [Bind.bind, Except.bind] at h
        · rw [hrest] at h
          simp only [Bind.bind, Except.bind, Except.ok.injEq] at h
          subst h
          intro pr hpr
          rcases List.mem_cons.mp hpr with rfl | hmem
          · refine ⟨?_, by simp [String.data_append]⟩
            have hnp : noPercent name = true := by
              simp only [cleanField, Bool.and_eq_true] at hcf1
              exact hcf1.1.1
            rw [countPHs_defaultFrag name hnp]
            rfl
          · exact generateConditions_count reqF hg rest rs hcfr hrest pr hmem
    · rw [hlk] at h
      cases hd : f.default with
      | none =>
        rw [hd] at h
        exact fun pr hpr => generateConditions_count reqF hg rest pairs hcfr h pr hpr
      | some d =>
        rw [hd] at h
        rcases hrest : generateConditions reqF rest with e2 | rs
        · rw [hrest] at h
          simp [Bind.bind, Except.bind] at h
        · rw [hrest] at h
          simp only [Bind.bind, Except.bind, Except.ok.injEq] at h
          subst h
          intro pr hpr
          rcases List.mem_cons.mp hpr with rfl | hmem
          · refine ⟨?_, by simp [String.data_append]⟩
            have hnp : noPercent name = true := by
              simp only [cleanField, Bool.and_eq_true] at hcf1
              exact hcf1.1.1
            rw [countPHs_defaultFrag name hnp]
            rfl
          · exact generateConditions_count reqF hg rest rs hcfr hrest pr hmem
    · rw [hlk] at h
      have h2 : (do
          let ps ← processFieldConditions f name (cv :: cvs)
          let rs ← generateConditions reqF rest
          Except.ok (ps ++ rs)) = Except.ok pairs := h
      clear h
      rcases hpc : processFieldConditions f name (cv :: cvs) with e1 | ps1
      · rw [hpc] at h2
        simp [Bind.bind, Except.bind] at h2
      · rw [hpc] at h2
        rcases hrest : generateConditions reqF rest with e2 | rs
        · rw [hrest] at h2
          simp [Bind.bind, Except.bind] at h2
        · rw [hrest] at h2
          simp only [Bind.bind, Except.bind, Except.ok.injEq] at h2
          subst h2
          intro pr hpr
          rcases List.mem_append.mp hpr with hmem | hmem
          · exact processFieldConditions_count f name hcf1 (cv :: cvs) ps1
              (lookupGroups_good reqF hg name (cv :: cvs) hlk) hpc pr hmem
          · exact generateConditions_count reqF hg rest rs hcfr hrest pr hmem

theorem noPercent_append (a b : String) (ha : noPercent a = true)
    (hb : noPercent b = true) : noPercent (a ++ b) = true := by
  unfold noPercent at *
  rw [String.data_append, List.all_append, ha, hb]
  rfl

theorem noPercent_wordChars (l : List Char) :
    noPercent (String.mk (l.takeWhile isWordChar)) = true := by
  unfold noPercent
  rw [List.all_eq_true]
  intro c hc
  have hw : isWordChar c = true := List.mem_takeWhile_imp hc
  simp only [decide_eq_true_eq]
  intro hcc
  subst hcc
  simp [isWordChar] at hw
theorem orderByString_count (ob : Option String) (s : String)
    (h : orderByString ob = .ok s) : countPHs s = 0 := by
  unfold orderByString at h
  split at h
  · injection h with h2
    rw [← h2]
    rfl
  next o =>
    split_ifs at h with h1
    · injection h with h2
      rw [← h2]
      rfl
    · split at h
      next rest heq =>
        have h4 : (if (rest.takeWhile isWordChar).isEmpty = true then
            (Except.error (Err.attributeError
              "\x27NoneType\x27 object has no attribute \x27groups\x27") : Except Err String)
          else Except.ok ("ORDER BY " ++ String.mk (rest.takeWhile isWordChar) ++ " DESC"))
            = .ok s := h
        split_ifs at h4 with h2
        injection h4 with h3
        rw [← h3]
        exact noPercent_countPHs _ (noPercent_append _ " DESC"
          (noPercent_append "ORDER BY " _ (by decide) (noPercent_wordChars _)) (by decide))
      next l hne =>
        have h4 : (if (o.data.takeWhile isWordChar).isEmpty = true then
            (Except.error (Err.attributeError
              "\x27NoneType\x27 object has no attribute \x27groups\x27") : Except Err String)
          else Except.ok ("ORDER BY " ++ String.mk (o.data.takeWhile isWordChar) ++ " ASC"))
            = .ok s := h
        split_ifs at h4 with h2
        injection h4 with h3
        rw [← h3]
        exact noPercent_countPHs _ (noPercent_append _ " ASC"
          (noPercent_append "ORDER BY " _ (by decide) (noPercent_wordChars _)) (by decide))

theorem flatten_length_eq (pairs : List (String × List PyVal))
    (h : ∀ pr ∈ pairs, countPHs pr.1 = pr.2.length) :
    ((pairs.map Prod.fst).map countPHs).sum = ((pairs.map Prod.snd).flatten).length := by
  rw [List.length_flatten]
  simp only [List.map_map]
  congr 1
  exact List.map_congr_left (fun pr hpr => h pr hpr)

theorem runSql_count (spec : FilterSetSpec) (reqF : List (String × List (String × String)))
    (hg : goodGroups reqF) (hclean : cleanSpec spec = true) (sql : String) (ps : List PyVal)
    (h : runSql spec reqF = .ok (sql, ps)) :
    ∃ andPairs orPairs,
      generateConditions reqF (spec.filters.filter (fun p => !(spec.logical_or.contains p.1)))
        = .ok andPairs ∧
      generateConditions reqF (spec.filters.filter (fun p => spec.logical_or.contains p.1))
        = .ok orPairs ∧
      ps = ((andPairs ++ orPairs).map Prod.snd).flatten ∧
      (∀ pr ∈ andPairs ++ orPairs, countPHs pr.1 = pr.2.length) ∧
      countPHs sql = ps.length := by
  have hcl : ∀ p ∈ spec.filters, cleanField p.1 p.2 = true :=
    fun p hp => List.all_eq_true.mp hclean p hp
  simp only [runSql] at h
  rcases hA : generateConditions reqF
      (spec.filters.filter (fun p => !(spec.logical_or.contains p.1))) with eA | andPairs
  · rw [hA] at h
    simp [Bind.bind, Except.bind] at h
  rw [hA] at h
  rcases hO : generateConditions reqF
      (spec.filters.filter (fun p => spec.logical_or.contains p.1)) with eO | orPairs
  · rw [hO] at h
    simp [Bind.bind, Except.bind] at h
  rw [hO] at h
  rcases hB : orderByString spec.order_by with eB | ob
  · rw [hB] at h
    simp [Bind.bind, Except.bind] at h
  rw [hB] at h
  have h5 : Except.ok (ε := Err)
      ((if spec.logical_or.isEmpty then joinSep " AND " (andPairs.map Prod.fst)
        else joinSep " AND " (andPairs.map Prod.fst) ++ " AND ("
          ++ orGroupSql (joinSep " OR " (orPairs.map Prod.fst)) ++ ")") ++ " " ++ ob,
      (andPairs.map Prod.snd).flatten ++ (orPairs.map Prod.snd).flatten)
      = Except.ok (sql, ps) := h
  injection h5 with h6
  have hs := congrArg Prod.fst h6
  have hp := congrArg Prod.snd h6
  simp only at hs hp
  have hAc := generateConditions_count reqF hg _ andPairs
    (fun p hp2 => hcl p (List.mem_of_mem_filter hp2)) hA
  have hOc := generateConditions_count reqF hg _ orPairs
    (fun p hp2 => hcl p (List.mem_of_mem_filter hp2)) hO
  have hBoth : ∀ pr ∈ andPairs ++ orPairs, countPHs pr.1 = pr.2.length := by
    intro pr hpr
    rcases List.mem_append.mp hpr with hm | hm
    · exact (hAc pr hm).1
    · exact (hOc pr hm).1
  refine ⟨andPairs, orPairs, rfl, rfl, ?_, hBoth, ?_⟩
  · rw [← hp]
    simp [List.map_append, List.flatten_append]
  have hAcount : countPHs (joinSep " AND " (andPairs.map Prod.fst))
      = ((andPairs.map Prod.snd).flatten).length := by
    rw [countPHs_joinSep " AND " (by decide) (by decide) (by decide) (by decide)]
    exact flatten_length_eq andPairs (fun pr hpr => (hAc pr hpr).1)
  have hObCount : countPHs ob = 0 := orderByString_count spec.order_by ob hB
  have hTail : ∀ (R : String), countPHs ((R ++ " ") ++ ob) = countPHs R := by
    intro R
    rw [countPHs_append (R ++ " ") ob (Or.inl (by
      rw [String.data_append, List.getLast?_append]
      intro hC
      have hC2 : some ' ' = some '%' := hC
      simp at hC2))]
    rw [countPHs_append R " " (Or.inr (by decide)), hObCount]
    rfl
  rw [← hs, ← hp]
  by_cases hEmp : spec.logical_or.isEmpty
  · rw [if_pos hEmp] at *
    have hOrNil : orPairs = [] := by
      have hln : spec.logical_or = [] := List.isEmpty_iff.mp hEmp
      rw [hln] at hO
      have hfn : spec.filters.filter (fun p => (([] : List String).contains p.1)) = [] := by
        simp
      rw [hfn] at hO
      simp only [generateConditions] at hO
      injection hO with hO2
      exact hO2.symm
    subst hOrNil
    rw [hTail]
    rw [hAcount]
    simp
  · rw [if_neg hEmp] at *
    rw [hTail]
    have hGfin : countPHs (joinSep " AND " (andPairs.map Prod.fst) ++ " AND ("
        ++ orGroupSql (joinSep " OR " (orPairs.map Prod.fst)) ++ ")")
        = ((andPairs.map Prod.snd).flatten).length + ((orPairs.map Prod.snd).flatten).length := by
      rw [countPHs_append _ ")" (Or.inr (by decide))]
      rw [countPHs_append _ (orGroupSql (joinSep " OR " (orPairs.map Prod.fst))) (Or.inl (by
        rw [String.data_append, List.getLast?_append]
        intro hC
        have hC2 : some '(' = some '%' := hC
        simp at hC2))]
      rw [countPHs_append _ " AND (" (Or.inr (by decide))]
      have hGc : countPHs (orGroupSql (joinSep " OR " (orPairs.map Prod.fst)))
          = ((orPairs.map Prod.snd).flatten).length := by
        unfold orGroupSql
        by_cases hOrE : joinSep " OR " (orPairs.map Prod.fst) = ""
        · rw [if_pos hOrE]
          have hfr : orPairs.map Prod.fst = [] :=
            joinSep_eq_empty " OR " (orPairs.map Prod.fst) (by
              intro x hx
              obtain ⟨pr, hpr, rfl⟩ := List.mem_map.mp hx
              exact (hOc pr hpr).2) hOrE
          have : orPairs = [] := by simpa using hfr
          subst this
          simp
          rfl
        · rw [if_neg hOrE]
          rw [countPHs_joinSep " OR " (by decide) (by decide) (by decide) (by decide)]
          exact flatten_length_eq orPairs (fun pr hpr => (hOc pr hpr).1)
      rw [hGc, hAcount]
      have hz1 : countPHs " AND (" = 0 := rfl
      have hz2 : countPHs ")" = 0 := rfl
      omega
    rw [hGfin]
    simp

/-- C1 (counterexample): the claim fails as stated.  The operator token of a
query parameter that is not in the alias table is interpolated verbatim into
the fragment (`OPERATORS_MAPPING.get(condition, condition)`), so the request
`age__%s=50` builds `sql` successfully as `age %s %s ` with two placeholders
but only one bound parameter. -/
theorem c1_placeholder_count_counterexample :
    filterSetSql ageOnlyFilterSet [("age__%s", "50")]
      = .ok ("age %s %s ", [PyVal.intv 50]) ∧
    countPHs "age %s %s " = 2 ∧ [PyVal.intv 50].length = 1 :=
  ⟨rfl, rfl, rfl⟩

/-- C1 (amended): for every filter set whose declared names, `map_to`
overrides and searched columns are free of `%`, and every request whose
operator tokens come from the alias table (`gte`, `gt`, `lte`, `lt`,
`exact`, `isnull`, or the implicit `=`), a successfully built `sql` fragment
has exactly as many `%s` placeholders as there are bound parameters, and the
parameters are the concatenation, in emission order, of the per-condition
parameters: AND-group conditions in field-declaration order then per-field
submission order, followed by OR-group conditions, each emitted fragment
carrying exactly as many placeholders as the parameters it appended (the
multi-field search variant contributing one parameter per searched
column). -/
theorem c1_placeholder_param_correspondence (spec : FilterSetSpec)
    (qp : List (String × String))
    (hclean : cleanSpec spec = true) (hcond : allowedParams qp = true)
    (sql : String) (ps : List PyVal)
    (h : filterSetSql spec qp = .ok (sql, ps)) :
    countPHs sql = ps.length ∧
    ∃ reqF andPairs orPairs,
      buildRequestFilters qp = .ok reqF ∧
      generateConditions reqF
        (spec.filters.filter (fun p => !(spec.logical_or.contains p.1))) = .ok andPairs ∧
      generateConditions reqF
        (spec.filters.filter (fun p => spec.logical_or.contains p.1)) = .ok orPairs ∧
      ps = ((andPairs ++ orPairs).map Prod.snd).flatten ∧
      ∀ pr ∈ andPairs ++ orPairs, countPHs pr.1 = pr.2.length := by
  simp only [filterSetSql] at h
  rcases hrf : buildRequestFilters qp with e | reqF
  · rw [hrf] at h
    simp [Bind.bind, Except.bind] at h
  · rw [hrf] at h
    have h2 : runSql spec reqF = .ok (sql, ps) := h
    obtain ⟨aP, oP, hA, hO, hps, hper, hcount⟩ :=
      runSql_count spec reqF (buildRequestFilters_good qp reqF hcond hrf) hclean sql ps h2
    exact ⟨hcount, reqF, aP, oP, rfl, hA, hO, hps, hper⟩

/-- Witness for the amended C1 at the repository test instance. -/
theorem c1_placeholder_param_correspondence_witness :
    countPHs "name = %s AND age = %s AND amount = %s ORDER BY amount DESC"
      = [PyVal.str "ololo", PyVal.intv 50, PyVal.dec 1005 1].length :=
  (c1_placeholder_param_correspondence genericFilterSet
    [("some_name", "ololo"), ("age", "50"), ("amount", "100.5")]
    (by decide) (by decide)
    "name = %s AND age = %s AND amount = %s ORDER BY amount DESC"
    [PyVal.str "ololo", PyVal.intv 50, PyVal.dec 1005 1] rfl).1

/-- C2: binding `{some_name: "ololo", age: 50, amount: "100.5"}` against the
declared fields (string with default `noop` mapped to column `name`, integer
bounded 10..100, decimal bounded -300..400, ordering `-amount`, no OR group)
yields exactly the fragment
`name = %s AND age = %s AND amount = %s ORDER BY amount DESC` and the
parameter tuple `("ololo", 50, Decimal("100.5"))` (the decimal modelled as
mantissa 1005, exponent 1). -/
theorem c2_generic_filterset_example :
    filterSetSql genericFilterSet [("some_name", "ololo"), ("age", "50"), ("amount", "100.5")]
      = .ok ("name = %s AND age = %s AND amount = %s ORDER BY amount DESC",
             [PyVal.str "ololo", PyVal.intv 50, PyVal.dec 1005 1]) := rfl

/-- C3: evaluation of the loader pattern at the decisive inputs.  The
pattern `CREATE (?:OR REPLACE)? (?P<type>(?:VIEW)|(?:FUNCTION)) (?P<name>[^_]\w+)`
makes the space after `CREATE` and the space before the kind token both
mandatory, so a plain `CREATE FUNCTION foo` declaration (single space) never
matches and `foo` is not registered, contradicting the claim; the
`CREATE OR REPLACE` forms do register the name under the lower-cased
kind. -/
theorem c3_plain_create_function_not_registered :
    loaderFindAll plainCreateArtifact = [] ∧
    registryGet (populateHelper [plainCreateArtifact]) "foo" = Option.none ∧
    loaderFindAll orReplaceArtifact = [("FUNCTION", "foo")] ∧
    registryGet (populateHelper [orReplaceArtifact]) "foo" = some "function" ∧
    loaderFindAll viewArtifact = [("VIEW", "bar")] ∧
    registryGet (populateHelper [viewArtifact]) "bar" = some "view" :=
  ⟨rfl, rfl, rfl, rfl, rfl, rfl⟩

/-- C4 (counterexample): on the string variant the `isnull` rewrite crashes
instead of emitting `IS NULL`: `StringFilter._parse_value` slices the
no-value marker (`novalue[:max_length]`), raising `TypeError`, so the claim
fails for that Filter Field variant. -/
theorem c4_isnull_string_counterexample :
    filterSetSql mappedDefaultFilterSet [("some_name__isnull", "true")]
      = .error (.typeError "\x27NoValue\x27 object is not subscriptable") := rfl

theorem isnullReplace_cases (value : String) :
    (pyLower value = "true" → isnullConditionReplace value = .ok "IS NULL") ∧
    (pyLower value = "false" → isnullConditionReplace value = .ok "IS NOT NULL") ∧
    (pyLower value ≠ "true" → pyLower value ≠ "false" →
      isnullConditionReplace value
        = .error (.valueError "%s is not right value for \x60isnull\x60 condition")) := by
  refine ⟨fun h => ?_, fun h => ?_, fun h1 h2 => ?_⟩ <;> simp [isnullConditionReplace, *]

theorem isnullVariantBehavior (pre value : String) (k : Except Err (String × List PyVal))
    (hk : k = (do let nc ← isnullConditionReplace value
                  Except.ok (pre ++ " " ++ nc, ([] : List PyVal)))) :
    (pyLower value = "true" → k = .ok (pre ++ " IS NULL", [])) ∧
    (pyLower value = "false" → k = .ok (pre ++ " IS NOT NULL", [])) ∧
    (pyLower value ≠ "true" → pyLower value ≠ "false" →
      k = .error (.valueError "%s is not right value for \x60isnull\x60 condition")) := by
  subst hk
  refine ⟨fun ht => ?_, fun hf => ?_, fun h1 h2 => ?_⟩
  · rw [(isnullReplace_cases value).1 ht]
    show Except.ok (pre ++ " " ++ "IS NULL", ([] : List PyVal)) = _
    rw [String.append_assoc]
    rfl
  · rw [(isnullReplace_cases value).2.1 hf]
    show Except.ok (pre ++ " " ++ "IS NOT NULL", ([] : List PyVal)) = _
    rw [String.append_assoc]
    rfl
  · rw [(isnullReplace_cases value).2.2 h1 h2]
    rfl

/-- C4 (amended): for the integer, decimal and datetime variants, an
`isnull` condition with value `true`/`false` in any letter case rewrites the
condition to `IS NULL`/`IS NOT NULL` on the effective column name and
appends zero parameters, and any other value fails with the `ValueError`
the spec calls InvalidOperatorValue.  The string variant instead crashes
with a `TypeError` (see the counterexample) and the multi-field search
variant ignores the operator entirely. -/
theorem c4_isnull_behavior (f : FilterField) (name value : String)
    (hv : (match f.variant with
           | .integer _ _ => True
           | .decimal _ _ => True
           | .datetime _ => True
           | _ => False)) :
    (pyLower value = "true" →
      fieldFilter f name "isnull" value = .ok (effectiveName f name ++ " IS NULL", [])) ∧
    (pyLower value = "false" →
      fieldFilter f name "isnull" value = .ok (effectiveName f name ++ " IS NOT NULL", [])) ∧
    (pyLower value ≠ "true" → pyLower value ≠ "false" →
      fieldFilter f name "isnull" value
        = .error (.valueError "%s is not right value for \x60isnull\x60 condition")) := by
  obtain ⟨v0, mt, d⟩ := f
  cases v0 with
  | string ml => exact hv.elim
  | combined fields ml ss cs pl sfl => exact hv.elim
  | integer mx mn => exact isnullVariantBehavior _ value _ rfl
  | decimal mx mn => exact isnullVariantBehavior _ value _ rfl
  | datetime fmt => exact isnullVariantBehavior _ value _ rfl

/-- Witness for the amended C4: `age__isnull=False` on the bounded integer
field emits `age IS NOT NULL` with no parameter. -/
theorem c4_isnull_behavior_witness :
    fieldFilter ⟨.integer (some 100) (some 10), Option.none, Option.none⟩ "age" "isnull" "False"
      = .ok ("age IS NOT NULL", []) :=
  (c4_isnull_behavior ⟨.integer (some 100) (some 10), Option.none, Option.none⟩
    "age" "False" trivial).2.1 (by decide)

/-- C5 (counterexample): `DateTimeFilter._convert` overrides the base
converter without the `except (TypeError, ValueError)` wrapper, so a value
that `strptime` rejects makes the `sql` build fail with the raw
`ValueError` — not a ConversionError surfaced as a validation error, and
with no field name in the message. -/
theorem c5_datetime_conversion_counterexample :
    filterSetSql dtFilterSet [("when", "abc")]
      = .error (.valueError "time data \x27abc\x27 does not match format \x27%Y\x27") := rfl

/-- C5 (amended): conversion failure produces a ConversionError only on the
path through the base `_convert` wrapper — in practice the integer variant,
whose `int` converter raises `ValueError`: the failure is re-raised as a
`ValidationError` embedding the value and the cause, and
`_generate_conditions` re-wraps it naming the offending field, emitting no
condition.  The datetime variant propagates the raw conversion error
unwrapped (see the counterexample) and the decimal variant raises
`decimal.InvalidOperation`, which the wrapper does not catch either. -/
theorem c5_conversion_error_naming (mx mn : Option Int) (mt : Option String)
    (d : Option PyVal) (value cause : String)
    (hconv : pyInt value = .error (.valueError cause)) :
    parseValue ⟨.integer mx mn, mt, d⟩ value
      = .error (.validationError (value ++ " can not be converted to int (" ++ cause ++ ")")) ∧
    filterSetSql ageOnlyFilterSet [("age", "abc")]
      = .error (.validationError
        "Exception raised for age: [\x27abc can not be converted to int (invalid literal for int() with base 10: \x27abc\x27)\x27]") ∧
    pyDecimal "zzz" = .error (.invalidOperation "ConversionSyntax") := by
  refine ⟨?_, rfl, rfl⟩
  rw [show parseValue ⟨.integer mx mn, mt, d⟩ value = (do
      let n ← intConvert value
      integerValidate mx mn n
      Except.ok (PyVal.intv n)) from rfl]
  have hic : intConvert value
      = .error (.validationError (value ++ " can not be converted to int (" ++ cause ++ ")")) := by
    unfold intConvert
    rw [hconv]
  rw [hic]
  rfl

/-- Witness for the amended C5 at the failing value `abc`. -/
theorem c5_conversion_error_naming_witness :
    parseValue ⟨.integer (some 100) (some 10), Option.none, Option.none⟩ "abc"
      = .error (.validationError
        "abc can not be converted to int (invalid literal for int() with base 10: \x27abc\x27)") :=
  (c5_conversion_error_naming (some 100) (some 10) Option.none Option.none "abc"
    "invalid literal for int() with base 10: \x27abc\x27" rfl).1

/-- C6 (counterexample): the bound checks use Python truthiness
(`if self.max_value and ...`), so a declared bound of `0` disables its
check: with `min_value=0` declared, the out-of-range value `-5` passes
validation and `sql` builds successfully instead of failing. -/
theorem c6_zero_bound_counterexample :
    filterSetSql ageZeroMinFilterSet [("age", "-5")]
      = .ok ("age = %s ", [PyVal.intv (-5)]) ∧ (-5 : Int) < 0 :=
  ⟨rfl, by decide⟩

/-- C6 (amended): for integer or decimal fields with declared nonzero
min/max bounds, a converted value above the max (checked first) or below
the min fails with a `ValidationError` whose message names the violated
bound, re-wrapped by `_generate_conditions` to name the triggering field;
values inside the declared range always pass validation.  A bound declared
as `0` is falsy and its check is skipped (see the counterexample). -/
theorem c6_bounds_validation (mx mn n : Int) (m : Int) (e : Nat) :
    (mx ≠ 0 → n > mx → integerValidate (some mx) (some mn) n
      = .error (.validationError ("Value can not be greater than " ++ toString mx))) ∧
    (mn ≠ 0 → ¬(mx ≠ 0 ∧ n > mx) → n < mn → integerValidate (some mx) (some mn) n
      = .error (.validationError ("Value can not be less than " ++ toString mn))) ∧
    (mn ≤ n → n ≤ mx → integerValidate (some mx) (some mn) n = .ok ()) ∧
    (mx ≠ 0 → m > mx * (10 : Int) ^ e → decimalValidate (some mx) (some mn) m e
      = .error (.validationError ("Value can not be greater than " ++ toString mx))) ∧
    (mn * (10 : Int) ^ e ≤ m → m ≤ mx * (10 : Int) ^ e →
      decimalValidate (some mx) (some mn) m e = .ok ()) ∧
    filterSetSql ageOnlyFilterSet [("age", "150")]
      = .error (.validationError
        "Exception raised for age: [\x27Value can not be greater than 100\x27]") := by
  refine ⟨fun hmx hn => ?_, fun hmn hno hn => ?_, fun h1 h2 => ?_,
    fun hmx hm => ?_, fun h1 h2 => ?_, rfl⟩
  · unfold integerValidate
    rw [if_pos (show (boundTruthy (some mx) && decide (n > (some mx).getD 0)) = true by
      simp only [boundTruthy, Option.getD_some, Bool.and_eq_true, decide_eq_true_eq]
      exact ⟨hmx, hn⟩)]
    rfl
  · unfold integerValidate
    rw [if_neg (show ¬(boundTruthy (some mx) && decide (n > (some mx).getD 0)) = true by
        simp only [boundTruthy, Option.getD_some, Bool.and_eq_true, decide_eq_true_eq]
        exact hno),
      if_pos (show (boundTruthy (some mn) && decide (n < (some mn).getD 0)) = true by
        simp only [boundTruthy, Option.getD_some, Bool.and_eq_true, decide_eq_true_eq]
        exact ⟨hmn, hn⟩)]
    rfl
  · unfold integerValidate
    rw [if_neg (show ¬(boundTruthy (some mx) && decide (n > (some mx).getD 0)) = true by
        simp only [boundTruthy, Option.getD_some, Bool.and_eq_true, decide_eq_true_eq]
        intro hc
        omega),
      if_neg (show ¬(boundTruthy (some mn) && decide (n < (some mn).getD 0)) = true by
        simp only [boundTruthy, Option.getD_some, Bool.and_eq_true, decide_eq_true_eq]
        intro hc
        omega)]
  · unfold decimalValidate
    rw [if_pos (show (boundTruthy (some mx) && decide (m > (some mx).getD 0 * (10 : Int) ^ e)) = true by
      simp only [boundTruthy, Option.getD_some, Bool.and_eq_true, decide_eq_true_eq]
      exact ⟨hmx, hm⟩)]
    rfl
  · unfold decimalValidate
    rw [if_neg (show ¬(boundTruthy (some mx) && decide (m > (some mx).getD 0 * (10 : Int) ^ e)) = true by
        simp only [boundTruthy, Option.getD_some, Bool.and_eq_true, decide_eq_true_eq]
        intro hc
        omega),
      if_neg (show ¬(boundTruthy (some mn) && decide (m < (some mn).getD 0 * (10 : Int) ^ e)) = true by
        simp only [boundTruthy, Option.getD_some, Bool.and_eq_true, decide_eq_true_eq]
        intro hc
        omega)]

/-- Witness for the amended C6: `age=150` against the declared bound
`max_value=100`. -/
theorem c6_bounds_validation_witness :
    integerValidate (some 100) (some 10) 150
      = .error (.validationError "Value can not be greater than 100") :=
  (c6_bounds_validation 100 10 150 0 0).1 (by decide) (by decide)

theorem opLookup_notin (c : String) (h : c ∉ allowedConds) : opLookup c = c := by
  unfold opLookup
  have hf : OPERATORS_MAPPING.find? (fun p => p.1 = c) = Option.none := by
    rw [List.find?_eq_none]
    intro pr hpr
    simp only [OPERATORS_MAPPING, List.mem_cons, List.not_mem_nil, or_false] at hpr
    rcases hpr with rfl | rfl | rfl | rfl | rfl | rfl <;>
      · simp only [decide_eq_true_eq]
        intro hc
        exact h (by rw [← hc]; decide)
  rw [hf]
  rfl

/-- C7 (counterexample): the claim fails as stated — an operator token
outside the alias table is not rejected but interpolated verbatim:
`age__like=50` emits the fragment `age like %s`, which is none of the
comparison forms the alias table can produce. -/
theorem c7_operator_passthrough_counterexample :
    filterSetSql ageOnlyFilterSet [("age__like", "50")]
      = .ok ("age like %s ", [PyVal.intv 50]) ∧
    ("age like %s " ≠ "age >= %s " ∧ "age like %s " ≠ "age > %s " ∧
     "age like %s " ≠ "age <= %s " ∧ "age like %s " ≠ "age < %s " ∧
     "age like %s " ≠ "age = %s " ∧ "age like %s " ≠ "age IS NULL " ∧
     "age like %s " ≠ "age IS NOT NULL ") :=
  ⟨rfl, by decide⟩

/-- C7 (amended): the alias table maps `gte→>=`, `gt→>`, `lte→<=`, `lt→<`,
`exact→=` and the absent-separator default `=` resolves to itself; for a
condition drawn from the table a base field emits only one of those five
comparison operators or the `isnull` rewrite; but a token outside the table
resolves to itself (`OPERATORS_MAPPING.get(condition, condition)`) and is
interpolated verbatim into the fragment (see the counterexample). -/
theorem c7_operator_resolution (f : FilterField) (name cond value s : String) (ps : List PyVal)
    (hnc : ∀ fields ml ss cs pl sfl, f.variant ≠ .combined fields ml ss cs pl sfl)
    (hin : cond ∈ allowedConds)
    (h : fieldFilter f name cond value = .ok (s, ps)) :
    (opLookup "gte" = ">=" ∧ opLookup "gt" = ">" ∧ opLookup "lte" = "<=" ∧
      opLookup "lt" = "<" ∧ opLookup "exact" = "=" ∧ opLookup "=" = "=") ∧
    (∀ c, c ∉ allowedConds → opLookup c = c) ∧
    ((∃ op v, (op = ">=" ∨ op = ">" ∨ op = "<=" ∨ op = "<" ∨ op = "=") ∧
        s = effectiveName f name ++ " " ++ op ++ " %s" ∧ ps = [v]) ∨
      ((s = effectiveName f name ++ " IS NULL" ∨ s = effectiveName f name ++ " IS NOT NULL") ∧
        ps = [])) := by
  refine ⟨⟨rfl, rfl, rfl, rfl, rfl, rfl⟩, opLookup_notin, ?_⟩
  rcases fieldFilter_ok_shape f name cond value s ps hin h with
    h1 | h2 | ⟨fields, ml, ss, cs, pl, sfl, hv, _⟩
  · exact Or.inl h1
  · exact Or.inr h2
  · exact absurd hv (hnc fields ml ss cs pl sfl)

/-- Witness for the amended C7 at `age__gte=50`. -/
theorem c7_operator_resolution_witness :
    opLookup "gte" = ">=" ∧ opLookup "gt" = ">" ∧ opLookup "lte" = "<=" ∧
      opLookup "lt" = "<" ∧ opLookup "exact" = "=" ∧ opLookup "=" = "=" :=
  (c7_operator_resolution ⟨.integer (some 100) (some 10), Option.none, Option.none⟩
    "age" "gte" "50" "age >= %s" [PyVal.intv 50]
    (fun _ _ _ _ _ _ hc => FilterVariant.noConfusion hc) (by decide) rfl).1

/-- C8 (counterexample): the claim fails for the implicit default
condition.  With `some_name = StringFilter(map_to='name', default='noop')`
and an empty request, `_generate_conditions` emits `some_name = %s` — the
external field name, not the `map_to` column `name`. -/
theorem c8_default_ignores_mapto_counterexample :
    filterSetSql mappedDefaultFilterSet []
      = .ok ("some_name = %s ", [PyVal.str "noop"]) ∧
    "some_name = %s " ≠ "name = %s " :=
  ⟨rfl, by decide⟩

/-- C8 (amended): every request-driven condition a base field emits uses
the `map_to` column name (the fragment starts with it), but the implicit
`field = default` condition emitted when the request supplies no value uses
the external field name, ignoring `map_to`. -/
theorem c8_mapto_usage (f : FilterField) (m : String) (hm : f.mapTo = some m)
    (name cond value s : String) (ps : List PyVal)
    (hnc : ∀ fields ml ss cs pl sfl, f.variant ≠ .combined fields ml ss cs pl sfl)
    (hin : cond ∈ allowedConds)
    (h : fieldFilter f name cond value = .ok (s, ps)) :
    (∃ tail, s = m ++ tail) ∧
    (∀ (reqF : List (String × List (String × String))) (d : PyVal)
        (rest : List (String × FilterField)) (pairs : List (String × List PyVal)),
      lookupGroups reqF name = Option.none → f.default = some d →
      generateConditions reqF ((name, f) :: rest) = .ok pairs →
      ∃ rs, pairs = (name ++ " = %s", [d]) :: rs) := by
  have hen : effectiveName f name = m := by
    unfold effectiveName
    rw [hm]
  constructor
  · rcases fieldFilter_ok_shape f name cond value s ps hin h with
      ⟨op, v, _, rfl, _⟩ | ⟨hs, _⟩ | ⟨fields, ml, ss, cs, pl, sfl, hv, _⟩
    · exact ⟨" " ++ op ++ " %s", by rw [hen]; simp [String.append_assoc]⟩
    · rcases hs with rfl | rfl
      · exact ⟨" IS NULL", by rw [hen]⟩
      · exact ⟨" IS NOT NULL", by rw [hen]⟩
    · exact absurd hv (hnc fields ml ss cs pl sfl)
  · intro reqF d rest pairs hlk hd hgen
    simp only [generateConditions] at hgen
    rw [hlk] at hgen
    have hgen2 : (match f.default with
        | some d => do
          let rs ← generateConditions reqF rest
          Except.ok ((name ++ " = %s", [d]) :: rs)
        | Option.none => generateConditions reqF rest) = Except.ok pairs := hgen
    rw [hd] at hgen2
    rcases hrest : generateConditions reqF rest with e2 | rs
    · rw [hrest] at hgen2
      simp [Bind.bind, Except.bind] at hgen2
    · rw [hrest] at hgen2
      simp only [Bind.bind, Except.bind, Except.ok.injEq] at hgen2
      exact ⟨rs, hgen2.symm⟩

/-- Witness for the amended C8: the mapped string field emits `name = %s`
for a supplied value, and the implicit default for an empty request is
`some_name = %s`. -/
theorem c8_mapto_usage_witness :
    ∃ tail, ("name = %s" : String) = "name" ++ tail :=
  (c8_mapto_usage ⟨.string 255, some "name", some (.str "noop")⟩ "name" rfl
    "some_name" "=" "ololo" "name = %s" [PyVal.str "ololo"]
    (fun _ _ _ _ _ _ hc => FilterVariant.noConfusion hc) (by decide) rfl).1

/-- C9: for every filter set and request, `params` read on a freshly
constructed instance fails with the `AssertionError` guarding the
`_conditions_built` flag (the spec calls it InvariantViolation), regardless
of the supplied field values; after a successful `sql` access the flag is
set and `params` returns the accumulated values without error. -/
theorem c9_params_gating (spec : FilterSetSpec) (qp : List (String × String)) (st : FSState)
    (hinit : fsInit qp = .ok st) :
    fsParams st = .error (.assertionError "\x60sql\x60 method must be called before!") ∧
    ∀ s st2, fsSql spec st = .ok (s, st2) → fsParams st2 = .ok st2.vals := by
  constructor
  · unfold fsInit at hinit
    rcases hb : buildRequestFilters qp with e | rf
    · rw [hb] at hinit
      simp [Except.map] at hinit
    · rw [hb] at hinit
      simp only [Except.map] at hinit
      injection hinit with h2
      rw [← h2]
      rfl
  · intro s st2 h
    unfold fsSql at h
    rcases hr : runSql spec st.reqF with e | pr
    · rw [hr] at h
      simp at h
    · rw [hr] at h
      obtain ⟨s0, ps0⟩ := pr
      injection h with h2
      have hst : st2 = ⟨st.reqF, st.vals ++ ps0, true⟩ := (congrArg Prod.snd h2).symm
      rw [hst]
      rfl

/-- Witness for C9 at the single-field request `age=50`. -/
theorem c9_params_gating_witness :
    fsParams ⟨[("age", [("=", "50")])], [], false⟩
      = .error (.assertionError "\x60sql\x60 method must be called before!") :=
  (c9_params_gating ageOnlyFilterSet [("age", "50")]
    ⟨[("age", [("=", "50")])], [], false⟩ rfl).1

theorem dropNones_eq_filterMap : ∀ (l : List (Option String)), dropNones l = l.filterMap id
  | [] => rfl
  | Option.none :: rest => by
    rw [show dropNones (Option.none :: rest) = dropNones rest from rfl,
        dropNones_eq_filterMap rest]
    simp
  | some a :: rest => by
    rw [show dropNones (some a :: rest) = a :: dropNones rest from rfl,
        dropNones_eq_filterMap rest]
    simp [List.filterMap_cons]

/-- C10: in `Loader._execute_sp`, only positional arguments become bound
parameters — `None` positionals are dropped, each remaining positional
yields one `%s` placeholder in order, keyword arguments are formatted
verbatim into the statement as `key := value` and never enter the
bound-argument list, and the bound-argument list passed to `execute` is
exactly the non-`None` positionals in their original order.  The
placeholder-count equality assumes the procedure name and the keyword texts
contain no `%` (they are identifiers and literal argument text). -/
theorem c10_execute_sp_args (name : String) (args : List (Option String))
    (kwargs : List (String × String))
    (hn : noPercent name = true)
    (hk : kwargs.all (fun kv => noPercent kv.1 && noPercent kv.2) = true) :
    (executeSp name args kwargs).2 = args.filterMap id ∧
    (executeSp name args kwargs).1
      = "SELECT * FROM " ++ name ++ "("
        ++ joinSep "," (List.replicate (args.filterMap id).length "%s"
            ++ kwargs.map (fun kv => kv.1 ++ " := " ++ kv.2)) ++ ")" ∧
    countPHs (executeSp name args kwargs).1 = (executeSp name args kwargs).2.length := by
  have h2 : (executeSp name args kwargs).2 = args.filterMap id := dropNones_eq_filterMap args
  have hmap : (dropNones args).map (fun _ => "%s")
      = List.replicate (args.filterMap id).length "%s" := by
    rw [dropNones_eq_filterMap args]
    exact List.map_const' _ "%s"
  have h1 : (executeSp name args kwargs).1
      = "SELECT * FROM " ++ name ++ "(" ++ joinSep ","
          ((dropNones args).map (fun _ => "%s")
            ++ kwargs.map (fun kv => kv.1 ++ " := " ++ kv.2)) ++ ")" := rfl
  refine ⟨h2, by rw [h1, hmap], ?_⟩
  rw [h1, h2, hmap]
  rw [countPHs_append _ ")" (Or.inr (by decide))]
  rw [countPHs_append _ (joinSep "," (List.replicate (args.filterMap id).length "%s"
      ++ kwargs.map (fun kv => kv.1 ++ " := " ++ kv.2))) (Or.inl (by
    rw [String.data_append, List.getLast?_append]
    intro hC
    have hC2 : some '(' = some '%' := hC
    simp at hC2))]
  rw [countPHs_append _ "(" (Or.inr (by decide))]
  rw [countPHs_append "SELECT * FROM " name (Or.inl (by decide))]
  rw [noPercent_countPHs name hn]
  rw [countPHs_joinSep "," (by decide) (by decide) (by decide) (by decide)]
  rw [List.map_append, List.map_replicate, List.sum_append]
  have hrep : (List.replicate (args.filterMap id).length (countPHs "%s")).sum
      = (args.filterMap id).length * 1 := by
    have : countPHs "%s" = 1 := rfl
    rw [this]
    exact List.sum_const_nat _ 1
  rw [hrep]
  have hkz : ((kwargs.map (fun kv => kv.1 ++ " := " ++ kv.2)).map countPHs).sum = 0 := by
    apply List.sum_eq_zero
    intro x hx
    obtain ⟨y, hy, rfl⟩ := List.mem_map.mp hx
    obtain ⟨kv, hkv, rfl⟩ := List.mem_map.mp hy
    have hkk := List.all_eq_true.mp hk kv hkv
    simp only [Bool.and_eq_true] at hkk
    exact countPHs_append_zero _ kv.2 (noPercent_append kv.1 " := " hkk.1 (by decide)) hkk.2
  rw [hkz]
  have hz1 : countPHs "SELECT * FROM " = 0 := rfl
  have hz2 : countPHs "(" = 0 := rfl
  have hz3 : countPHs ")" = 0 := rfl
  omega

/-- Witness for C10: `f(1, None, 2, k := v)` binds exactly `["1", "2"]`. -/
theorem c10_execute_sp_args_witness :
    (executeSp "f" [some "1", Option.none, some "2"] [("k", "v")]).2 = ["1", "2"] := by
  have h := c10_execute_sp_args "f" [some "1", Option.none, some "2"] [("k", "v")]
    (by decide) (by decide)
  rw [h.1]
  rfl
